import Mathlib

/-!
# Echo benchmark driver (`CommonAPI-Echo/src/Benchmark.cpp`)

A shallow embedding of `CommonAPI::tests::Benchmark`: the availability wait,
the dispatch of `run()`, the three blocking loops, the three chained
(callback-driven) loops and their continuations.

The driver is embedded as explicit state passing over a `World` that holds
the timing aggregator `benchmarkStats_`, the one-shot `asyncPromise_`, the
asynchronous call that is in flight, and the trace of everything the driver
did to its collaborators (console, aggregator, echo proxy).  The remote echo
service is an `Environment`: the answer of the n-th availability probe and
the outcome and reply of the n-th remote call.

Chained mode is embedded sequentially: while `run()` waits on the future, the
RPC client delivers the reply of the call in flight to its continuation, one
reply at a time, for at most `deliveries` replies; a run whose promise is not
resolved within them has no result.  The counts `sendCount_`, `arraySize_` and
the loop counters are natural numbers: each counter stays below its bound, so
no unsigned arithmetic wraps.  Elapsed times are not modelled.
-/

namespace EchoBenchmark

/-! ## Data model -/

/-- Modelled from the spec: the outcome of a remote call, `CommonAPI::CallStatus`, declared by
the external RPC library.  The spec gives it as the tri-state
`SUCCESS | FAILURE(reason) | NOT_AVAILABLE`; the source names `SUCCESS` and
`NOT_AVAILABLE`. -/
inductive CallStatus where
  | SUCCESS
  | FAILURE (reason : Nat)
  | NOT_AVAILABLE
  deriving DecidableEq, Repr

/-- Modelled from the spec: the call shape `SendType`, declared in `Benchmark.h`.  The three
enumerators are the ones `run()` switches on; `other raw` stands for every
other value of the enumeration, which falls into the `default:` branch. -/
inductive SendType where
  | SEND_TYPE_EMPTY
  | SEND_TYPE_COPY
  | SEND_TYPE_COPIES
  | other (raw : Nat)
  deriving DecidableEq, Repr

/-- A decimal literal `mantissa * 10 ^ exponent`, kept as written in the source
(no floating-point rounding is modelled). -/
structure Decimal where
  mantissa : Int
  exponent : Int
  deriving DecidableEq, Repr

/-- The record `Echo::TestData`, known here through its four constructor
arguments. -/
structure TestData where
  arg1 : Int
  arg2 : Decimal
  arg3 : Decimal
  arg4 : String
  deriving DecidableEq, Repr

/-- The sequence type `Echo::TestDataArray`. -/
abbrev TestDataArray := List TestData

/-- The record built by `TestData(1, 12.6, 1e40, "XXXXXXXXXXXXXXXXXXXX")`. -/
def fixedTestData : TestData :=
  { arg1 := 1, arg2 := ⟨126, -1⟩, arg3 := ⟨1, 40⟩, arg4 := "XXXXXXXXXXXXXXXXXXXX" }

/-- A remote operation of the echo proxy together with the payload sent. -/
inductive Request where
  | getEmptyResponse
  | getTestDataCopy (testData : TestData)
  | getTestDataArrayCopy (testDataArray : TestDataArray)
  deriving DecidableEq, Repr

/-- The operations of the timing aggregator. -/
inductive StatsOp where
  | reset
  | startCreation
  | stopCreation
  | startTransport
  | stopTransport
  | addSendReplyDelta
  | stop
  deriving DecidableEq, Repr

/-- The console lines of the driver (their text is not modelled). -/
inductive Message where
  | waitingForService
  | timedOut
  | benchmarkBegin
  | benchmarkEnd
  | notImplemented
  | creatingTestData
  | creatingTestDataArray
  deriving DecidableEq, Repr

/-- Everything the driver does to its collaborators, in program order. -/
inductive Event where
  | cout (m : Message)
  | cerr (m : Message)
  | isAvailable (answer : Bool)
  | sleep (ms : Nat)
  | stats (op : StatsOp)
  | call (r : Request)
  | callAsync (r : Request)
  | set_value (s : CallStatus)
  | proxyReset
  deriving DecidableEq, Repr

/-- Modelled from the spec: the timing aggregator `BenchmarkStats` (its source is not under
`src/`).  It keeps the count of completed round trips and one in-flight
marker per phase; elapsed times are not modelled. -/
structure BenchmarkStats where
  sendCount : Nat
  creationOpen : Bool
  transportOpen : Bool
  stopped : Bool
  deriving DecidableEq, Repr

namespace BenchmarkStats

/-- Modelled from the spec: `reset()` clears the accumulators, counter and markers. -/
@[simp]
def reset (_ : BenchmarkStats) : BenchmarkStats :=
  { sendCount := 0, creationOpen := false, transportOpen := false, stopped := false }

/-- Modelled from the spec: `startCreation()` opens the construction phase. -/
@[simp]
def startCreation (s : BenchmarkStats) : BenchmarkStats := { s with creationOpen := true }

/-- Modelled from the spec: `stopCreation()` closes the construction phase. -/
@[simp]
def stopCreation (s : BenchmarkStats) : BenchmarkStats := { s with creationOpen := false }

/-- Modelled from the spec: `startTransport()` opens the transport phase. -/
@[simp]
def startTransport (s : BenchmarkStats) : BenchmarkStats := { s with transportOpen := true }

/-- Modelled from the spec: `stopTransport()` closes the transport phase. -/
@[simp]
def stopTransport (s : BenchmarkStats) : BenchmarkStats := { s with transportOpen := false }

/-- Modelled from the spec: `addSendReplyDelta()` increments the completed-call counter. -/
@[simp]
def addSendReplyDelta (s : BenchmarkStats) : BenchmarkStats :=
  { s with sendCount := s.sendCount + 1 }

/-- Modelled from the spec: `getSendCount()` reads the completed-call counter. -/
@[simp]
def getSendCount (s : BenchmarkStats) : Nat := s.sendCount

/-- Modelled from the spec: `stop()` records the end of the run; the counters are kept. -/
@[simp]
def stop (s : BenchmarkStats) : BenchmarkStats := { s with stopped := true }

end BenchmarkStats

/-- The configuration members of `Benchmark` set by its constructor. -/
structure Benchmark where
  sendType_ : SendType
  sendCount_ : Nat
  arraySize_ : Nat
  verbose_ : Bool
  async_ : Bool
  deriving DecidableEq, Repr

/-- The collaborators the driver cannot see into: the answer of the n-th
availability probe, the outcome and the reply of the n-th remote call
(counted from 0), and the indeterminate value an uninitialised local
`CallStatus` holds. -/
structure Environment where
  isAvailable : Nat → Bool
  callStatus : Nat → CallStatus
  testDataReply : Nat → TestData
  testDataArrayReply : Nat → TestDataArray
  indeterminate : CallStatus

/-- The mutable state around one `run()`. -/
structure World where
  benchmarkStats_ : BenchmarkStats
  asyncPromise_ : Option CallStatus
  probes : Nat
  calls : Nat
  inFlight : Option (Nat × Request)
  trace : List Event

/-- The state in which `run()` is entered. -/
def World.initial (stats0 : BenchmarkStats) : World :=
  { benchmarkStats_ := stats0, asyncPromise_ := none, probes := 0, calls := 0,
    inFlight := none, trace := [] }

/-! ## Primitive actions -/

@[simp]
def emit (e : Event) (w : World) : World := { w with trace := w.trace ++ [e] }

@[simp]
def cout (m : Message) (w : World) : World := emit (.cout m) w

@[simp]
def cerr (m : Message) (w : World) : World := emit (.cerr m) w

@[simp]
def sleep_for (ms : Nat) (w : World) : World := emit (.sleep ms) w

/-- One probe `echoProxy_->isAvailable()`. -/
@[simp]
def isAvailable (env : Environment) (w : World) : Bool × World :=
  let answer := env.isAvailable w.probes
  (answer, emit (.isAvailable answer) { w with probes := w.probes + 1 })

@[simp]
def statsReset (w : World) : World :=
  emit (.stats .reset) { w with benchmarkStats_ := w.benchmarkStats_.reset }

@[simp]
def startCreation (w : World) : World :=
  emit (.stats .startCreation) { w with benchmarkStats_ := w.benchmarkStats_.startCreation }

@[simp]
def stopCreation (w : World) : World :=
  emit (.stats .stopCreation) { w with benchmarkStats_ := w.benchmarkStats_.stopCreation }

@[simp]
def startTransport (w : World) : World :=
  emit (.stats .startTransport) { w with benchmarkStats_ := w.benchmarkStats_.startTransport }

@[simp]
def stopTransport (w : World) : World :=
  emit (.stats .stopTransport) { w with benchmarkStats_ := w.benchmarkStats_.stopTransport }

@[simp]
def addSendReplyDelta (w : World) : World :=
  emit (.stats .addSendReplyDelta)
    { w with benchmarkStats_ := w.benchmarkStats_.addSendReplyDelta }

@[simp]
def statsStop (w : World) : World :=
  emit (.stats .stop) { w with benchmarkStats_ := w.benchmarkStats_.stop }

@[simp]
def getSendCount (w : World) : Nat := w.benchmarkStats_.getSendCount

/-- The blocking call `echoProxy_->getEmptyResponse(callStatus)`. -/
@[simp]
def getEmptyResponse (env : Environment) (w : World) : CallStatus × World :=
  (env.callStatus w.calls, emit (.call .getEmptyResponse) { w with calls := w.calls + 1 })

/-- The blocking call `echoProxy_->getTestDataCopy(testData, callStatus, testDataReply)`. -/
@[simp]
def getTestDataCopy (env : Environment) (testData : TestData) (w : World) :
    (CallStatus × TestData) × World :=
  ((env.callStatus w.calls, env.testDataReply w.calls),
    emit (.call (.getTestDataCopy testData)) { w with calls := w.calls + 1 })

/-- The blocking call `echoProxy_->getTestDataArrayCopy(testDataArray, callStatus,
testDataArrayReply)`. -/
@[simp]
def getTestDataArrayCopy (env : Environment) (testDataArray : TestDataArray) (w : World) :
    (CallStatus × TestDataArray) × World :=
  ((env.callStatus w.calls, env.testDataArrayReply w.calls),
    emit (.call (.getTestDataArrayCopy testDataArray)) { w with calls := w.calls + 1 })

/-- An asynchronous call: the request is handed to the RPC client, which
invokes the registered continuation once its outcome is known. -/
@[simp]
def sendAsync (r : Request) (w : World) : World :=
  emit (.callAsync r) { w with calls := w.calls + 1, inFlight := some (w.calls, r) }

@[simp]
def getEmptyResponseAsync (w : World) : World := sendAsync .getEmptyResponse w

@[simp]
def getTestDataCopyAsync (testData : TestData) (w : World) : World :=
  sendAsync (.getTestDataCopy testData) w

@[simp]
def getTestDataArrayCopyAsync (testDataArray : TestDataArray) (w : World) : World :=
  sendAsync (.getTestDataArrayCopy testDataArray) w

/-- The call `asyncPromise_.set_value(callStatus)`.  Every call is recorded in the
trace; the value a reader of the future sees is the first one set. -/
@[simp]
def set_value (callStatus : CallStatus) (w : World) : World :=
  emit (.set_value callStatus)
    { w with asyncPromise_ := match w.asyncPromise_ with
        | none => some callStatus
        | some v => some v }

/-! ## Payload construction -/

/-- `Benchmark::createTestData`. -/
def createTestData (b : Benchmark) (w : World) : TestData × World :=
  let w := if b.verbose_ then cout .creatingTestData w else w
  let w := startCreation w
  let testData := fixedTestData
  let w := stopCreation w
  (testData, w)

/-- The loop `for (i = 0; i < arraySize_; i++) testDataArray.emplace_back(...)`,
by recursion on the number of iterations left. -/
def fillTestDataArray : Nat → TestDataArray → TestDataArray
  | 0, testDataArray => testDataArray
  | n + 1, testDataArray => fillTestDataArray n (testDataArray ++ [fixedTestData])

/-- `Benchmark::createTestDataArray`. -/
def createTestDataArray (b : Benchmark) (w : World) : TestDataArray × World :=
  let w := if b.verbose_ then cout .creatingTestDataArray w else w
  let w := startCreation w
  let testDataArray := fillTestDataArray b.arraySize_ []
  let w := stopCreation w
  (testDataArray, w)

/-! ## Blocking loops

Each `for (i = 0; i < sendCount_; i++)` loop is a recursion on the number of
iterations left; the loop-carried variables are arguments. -/

def doEmptySendLoop (env : Environment) : Nat → CallStatus → World → CallStatus × World
  | 0, callStatus, w => (callStatus, w)
  | n + 1, _, w =>
    let w := startTransport w
    let (callStatus, w) := getEmptyResponse env w
    if callStatus ≠ CallStatus.SUCCESS then (callStatus, w)
    else
      let w := stopTransport w
      let w := addSendReplyDelta w
      doEmptySendLoop env n callStatus w

/-- `Benchmark::doEmptySendBenchmark`. -/
def doEmptySendBenchmark (b : Benchmark) (env : Environment) (w : World) : CallStatus × World :=
  doEmptySendLoop env b.sendCount_ env.indeterminate w

def doCopySendLoop (env : Environment) :
    Nat → CallStatus → TestData → World → CallStatus × World
  | 0, callStatus, _, w => (callStatus, w)
  | n + 1, _, testData, w =>
    let w := startTransport w
    let ((callStatus, testDataReply), w) := getTestDataCopy env testData w
    if callStatus ≠ CallStatus.SUCCESS then (callStatus, w)
    else
      let w := stopTransport w
      let w := startCreation w
      let testData := testDataReply
      let w := stopCreation w
      let w := addSendReplyDelta w
      doCopySendLoop env n callStatus testData w

/-- `Benchmark::doCopySendBenchmark`. -/
def doCopySendBenchmark (b : Benchmark) (env : Environment) (w : World) : CallStatus × World :=
  let (testData, w) := createTestData b w
  doCopySendLoop env b.sendCount_ env.indeterminate testData w

def doCopiesSendLoop (env : Environment) :
    Nat → CallStatus → TestDataArray → World → CallStatus × World
  | 0, callStatus, _, w => (callStatus, w)
  | n + 1, _, testDataArray, w =>
    let w := startTransport w
    let ((callStatus, testDataArrayReply), w) := getTestDataArrayCopy env testDataArray w
    if callStatus ≠ CallStatus.SUCCESS then (callStatus, w)
    else
      let w := stopTransport w
      let w := startCreation w
      let testDataArray := testDataArrayReply
      let w := stopCreation w
      let w := addSendReplyDelta w
      doCopiesSendLoop env n callStatus testDataArray w

/-- `Benchmark::doCopiesSendBenchmark`. -/
def doCopiesSendBenchmark (b : Benchmark) (env : Environment) (w : World) : CallStatus × World :=
  let (testDataArray, w) := createTestDataArray b w
  doCopiesSendLoop env b.sendCount_ env.indeterminate testDataArray w

/-! ## Chained loops -/

/-- `Benchmark::emptyAsyncSendBenchmarkCallback`. -/
def emptyAsyncSendBenchmarkCallback (b : Benchmark) (callStatus : CallStatus) (w : World) :
    World :=
  let w := stopTransport w
  let w := addSendReplyDelta w
  if callStatus = CallStatus.SUCCESS ∧ getSendCount w < b.sendCount_ then
    let w := startTransport w
    getEmptyResponseAsync w
  else
    set_value callStatus w

/-- `Benchmark::copyAsyncSendBenchmarkCallback`. -/
def copyAsyncSendBenchmarkCallback (b : Benchmark) (callStatus : CallStatus)
    (testDataReply : TestData) (w : World) : World :=
  let w := stopTransport w
  let w := addSendReplyDelta w
  let w := startCreation w
  let testData := testDataReply
  let w := stopCreation w
  if callStatus = CallStatus.SUCCESS ∧ getSendCount w < b.sendCount_ then
    let w := startTransport w
    getTestDataCopyAsync testData w
  else
    set_value callStatus w

/-- `Benchmark::copiesAsyncSendBenchmarkCallback`. -/
def copiesAsyncSendBenchmarkCallback (b : Benchmark) (callStatus : CallStatus)
    (testDataArrayReply : TestDataArray) (w : World) : World :=
  let w := stopTransport w
  let w := addSendReplyDelta w
  let w := startCreation w
  let testDataArray := testDataArrayReply
  let w := stopCreation w
  if callStatus = CallStatus.SUCCESS ∧ getSendCount w < b.sendCount_ then
    let w := startTransport w
    getTestDataArrayCopyAsync testDataArray w
  else
    set_value callStatus w

/-- The RPC client delivering one reply: the continuation registered with the
in-flight call (bound to the three callbacks by the constructor of
`Benchmark`) is invoked once with the outcome of that call. -/
def deliverReply (b : Benchmark) (env : Environment) (index : Nat) (r : Request)
    (w : World) : World :=
  let w := { w with inFlight := none }
  match r with
  | .getEmptyResponse => emptyAsyncSendBenchmarkCallback b (env.callStatus index) w
  | .getTestDataCopy _ =>
    copyAsyncSendBenchmarkCallback b (env.callStatus index) (env.testDataReply index) w
  | .getTestDataArrayCopy _ =>
    copiesAsyncSendBenchmarkCallback b (env.callStatus index) (env.testDataArrayReply index) w

/-- The RPC client's dispatching while `run()` is blocked on the future: replies
are delivered as long as a call is in flight, at most `deliveries` of them. -/
def dispatch (b : Benchmark) (env : Environment) : Nat → World → World
  | 0, w => w
  | deliveries + 1, w =>
    match w.inFlight with
    | none => w
    | some (index, r) => dispatch b env deliveries (deliverReply b env index r w)

/-- The wait `asyncPromise_.get_future().get()`: the value set by the chain, or
`none` when the promise was not resolved within the deliveries granted. -/
def awaitFuture (b : Benchmark) (env : Environment) (deliveries : Nat) (w : World) :
    Option CallStatus × World :=
  let w := dispatch b env deliveries w
  (w.asyncPromise_, w)

/-- `Benchmark::doEmptyAsyncSendBenchmark`. -/
def doEmptyAsyncSendBenchmark (b : Benchmark) (env : Environment) (deliveries : Nat)
    (w : World) : Option CallStatus × World :=
  let w := startTransport w
  let w := getEmptyResponseAsync w
  awaitFuture b env deliveries w

/-- `Benchmark::doCopyAsyncSendBenchmark`. -/
def doCopyAsyncSendBenchmark (b : Benchmark) (env : Environment) (deliveries : Nat)
    (w : World) : Option CallStatus × World :=
  let (testData, w) := createTestData b w
  let w := startTransport w
  let w := getTestDataCopyAsync testData w
  awaitFuture b env deliveries w

/-- `Benchmark::doCopiesAsyncSendBenchmark`. -/
def doCopiesAsyncSendBenchmark (b : Benchmark) (env : Environment) (deliveries : Nat)
    (w : World) : Option CallStatus × World :=
  let (testDataArray, w) := createTestDataArray b w
  let w := startTransport w
  let w := getTestDataArrayCopyAsync testDataArray w
  awaitFuture b env deliveries w

/-! ## `run()` -/

/-- The loop `for (int i = 0; !echoProxy_->isAvailable() && i < 10; i++) sleep_for(500ms)`,
by recursion on `10 - i`. -/
def waitForService (env : Environment) : Nat → World → World
  | 0, w => (isAvailable env w).2
  | left + 1, w =>
    let (available, w) := isAvailable env w
    if !available then waitForService env left (sleep_for 500 w) else w

/-- Lines 36 to 41 of `run()`: the bounded wait and the probe that decides
whether the run goes on. -/
def awaitService (env : Environment) (w : World) : Bool × World :=
  let w := cout .waitingForService w
  let w := waitForService env 10 w
  isAvailable env w

/-- The `switch (sendType_)` of `run()`. -/
def dispatchSendType (b : Benchmark) (env : Environment) (deliveries : Nat) (w : World) :
    Option CallStatus × World :=
  let result := CallStatus.NOT_AVAILABLE
  match b.sendType_ with
  | .SEND_TYPE_EMPTY =>
    if b.async_ then doEmptyAsyncSendBenchmark b env deliveries w
    else let (r, w) := doEmptySendBenchmark b env w; (some r, w)
  | .SEND_TYPE_COPY =>
    if b.async_ then doCopyAsyncSendBenchmark b env deliveries w
    else let (r, w) := doCopySendBenchmark b env w; (some r, w)
  | .SEND_TYPE_COPIES =>
    if b.async_ then doCopiesAsyncSendBenchmark b env deliveries w
    else let (r, w) := doCopiesSendBenchmark b env w; (some r, w)
  | .other _ => (some result, cerr .notImplemented w)

/-- `Benchmark::run`.  The result is `none` when the run stays blocked on the
future (the chain was not resolved within `deliveries` replies). -/
def run (b : Benchmark) (env : Environment) (deliveries : Nat) (stats0 : BenchmarkStats) :
    Option Bool × World :=
  let w := World.initial stats0
  let (available, w) := awaitService env w
  if !available then
    (some false, cerr .timedOut w)
  else
    let w := if b.verbose_ then cout .benchmarkBegin w else w
    let w := statsReset w
    match dispatchSendType b env deliveries w with
    | (none, w) => (none, w)
    | (some result, w) =>
      let w := if b.verbose_ then cout .benchmarkEnd w else w
      let w := statsStop w
      let w := emit .proxyReset w
      (some (decide (result = CallStatus.SUCCESS)), w)

/-! ## Observations on a trace -/

/-- The remote calls of a trace, blocking or asynchronous, in order. -/
def remoteCalls (t : List Event) : List Request :=
  t.filterMap fun e => match e with
    | .call r => some r
    | .callAsync r => some r
    | _ => none

/-- The aggregator operations of a trace, in order. -/
def statsOps (t : List Event) : List StatsOp :=
  t.filterMap fun e => match e with
    | .stats op => some op
    | _ => none

/-- The values passed to `asyncPromise_.set_value`, in order. -/
def resolutions (t : List Event) : List CallStatus :=
  t.filterMap fun e => match e with
    | .set_value s => some s
    | _ => none

/-- The delays of a trace, in order. -/
def sleeps (t : List Event) : List Nat :=
  t.filterMap fun e => match e with
    | .sleep ms => some ms
    | _ => none

/-! ## The pairing discipline and the echo chain -/

/-- The effect of one aggregator operation on the aggregator. -/
def BenchmarkStats.apply (s : BenchmarkStats) : StatsOp → BenchmarkStats
  | .reset => s.reset
  | .startCreation => s.startCreation
  | .stopCreation => s.stopCreation
  | .startTransport => s.startTransport
  | .stopTransport => s.stopTransport
  | .addSendReplyDelta => s.addSendReplyDelta
  | .stop => s.stop

/-- The pairing discipline for the operations between `reset` and `stop`: a phase
is started only when neither phase is open, stopped only when it is the open
phase, and a round trip is counted only when transport is not open.  `reset`
and `stop` frame the run and do not occur between themselves. -/
def Allowed (s : BenchmarkStats) : StatsOp → Bool
  | .startCreation => !s.creationOpen && !s.transportOpen
  | .startTransport => !s.creationOpen && !s.transportOpen
  | .stopCreation => s.creationOpen && !s.transportOpen
  | .stopTransport => s.transportOpen && !s.creationOpen
  | .addSendReplyDelta => !s.transportOpen
  | .reset => false
  | .stop => false

/-- One step of the monitor of the pairing discipline: `none` once an operation
was issued against the discipline. -/
def track (s : Option BenchmarkStats) (op : StatsOp) : Option BenchmarkStats :=
  match s with
  | none => none
  | some s => if Allowed s op then some (s.apply op) else none

/-- The request that echoes the reply of call `i` back, for the operation of `r`. -/
def echoOf (env : Environment) (r : Request) : Nat → Request :=
  match r with
  | .getEmptyResponse => fun _ => .getEmptyResponse
  | .getTestDataCopy _ => fun i => .getTestDataCopy (env.testDataReply i)
  | .getTestDataArrayCopy _ => fun i => .getTestDataArrayCopy (env.testDataArrayReply i)

/-- The requests of `m` consecutive calls, the first one being call number
`index` with request `r`, each later one given by `next` at the number of the
call before it. -/
def echoChain (next : Nat → Request) : Nat → Nat → Request → List Request
  | 0, _, _ => []
  | m + 1, index, r => r :: echoChain next m (index + 1) (next index)

/-- The request of the first call of a run. -/
def initialRequest (b : Benchmark) : Request :=
  match b.sendType_ with
  | .SEND_TYPE_COPY => .getTestDataCopy fixedTestData
  | .SEND_TYPE_COPIES => .getTestDataArrayCopy (List.replicate b.arraySize_ fixedTestData)
  | _ => .getEmptyResponse

/-- The call shapes `run()` implements. -/
def Recognised : SendType → Prop
  | .other _ => False
  | _ => True

/-- The outcome of a chained run that issued exactly `m` calls: the promise is
resolved exactly once, with the outcome of call `m`, after the `m` calls and
with no call after it, and `run()` returns whether that outcome is `SUCCESS`. -/
def ResolvedAfter (b : Benchmark) (env : Environment) (deliveries : Nat)
    (stats0 : BenchmarkStats) (m : Nat) : Prop :=
  (remoteCalls (run b env deliveries stats0).2.trace).length = m ∧
    resolutions (run b env deliveries stats0).2.trace = [env.callStatus (m - 1)] ∧
    (∃ before after, (run b env deliveries stats0).2.trace =
        before ++ [.set_value (env.callStatus (m - 1))] ++ after ∧
      (remoteCalls before).length = m ∧ resolutions before = [] ∧
      remoteCalls after = [] ∧ resolutions after = []) ∧
    (run b env deliveries stats0).1 =
      some (decide (env.callStatus (m - 1) = CallStatus.SUCCESS))

/-- Lines 46 to 50 of `run()`, after the endpoint was found available: the
state in which the `switch (sendType_)` is entered, the aggregator just reset. -/
def enterSwitch (b : Benchmark) (env : Environment) (stats0 : BenchmarkStats) : World :=
  let w := (awaitService env (World.initial stats0)).2
  let w := if b.verbose_ then cout .benchmarkBegin w else w
  statsReset w

/-- Lines 72 to 80 of `run()`: what `run()` makes of the outcome of the loop it
entered (the aggregator is stopped, the proxy released, the outcome compared
with `SUCCESS`); no result while the loop is blocked on the future. -/
def leaveSwitch (b : Benchmark) : Option CallStatus × World → Option Bool × World
  | (none, w) => (none, w)
  | (some result, w) =>
    let w := if b.verbose_ then cout .benchmarkEnd w else w
    let w := statsStop w
    let w := emit .proxyReset w
    (some (decide (result = CallStatus.SUCCESS)), w)

/-- The call shape whose loops issue the remote operation of a request. -/
def operationOf : Request → SendType
  | .getEmptyResponse => .SEND_TYPE_EMPTY
  | .getTestDataCopy _ => .SEND_TYPE_COPY
  | .getTestDataArrayCopy _ => .SEND_TYPE_COPIES

/-! ## Example environments -/

/-- An endpoint that is available and answers every call with `SUCCESS`, echoing
the fixed record. -/
def echoService : Environment :=
  { isAvailable := fun _ => true
    callStatus := fun _ => .SUCCESS
    testDataReply := fun _ => fixedTestData
    testDataArrayReply := fun _ => []
    indeterminate := .NOT_AVAILABLE }

/-- An available endpoint whose call number `k` (counted from 0) fails, all others
succeeding. -/
def failingService (k : Nat) : Environment :=
  { echoService with callStatus := fun i => if i = k then .FAILURE 0 else .SUCCESS }

/-- An endpoint that never becomes available. -/
def absentService : Environment :=
  { echoService with isAvailable := fun _ => false }

/-- A freshly constructed aggregator. -/
def freshStats : BenchmarkStats :=
  { sendCount := 0, creationOpen := false, transportOpen := false, stopped := false }

/-- An available endpoint that answers every call with `SUCCESS` and a reply that
depends on the number of the call. -/
def countingService : Environment :=
  { echoService with
      testDataReply := fun i => { fixedTestData with arg1 := i }
      testDataArrayReply := fun i => List.replicate i fixedTestData }

/-! ## Lemmas on traces -/

@[simp]
theorem statsOps_nil : statsOps [] = [] := rfl

@[simp]
theorem statsOps_append (a b : List Event) :
    statsOps (a ++ b) = statsOps a ++ statsOps b := by simp [statsOps]

@[simp]
theorem statsOps_cons (e : Event) (t : List Event) :
    statsOps (e :: t) = (match e with | .stats op => [op] | _ => []) ++ statsOps t := by
  cases e <;> rfl

@[simp]
theorem remoteCalls_nil : remoteCalls [] = [] := rfl

@[simp]
theorem remoteCalls_append (a b : List Event) :
    remoteCalls (a ++ b) = remoteCalls a ++ remoteCalls b := by simp [remoteCalls]

@[simp]
theorem remoteCalls_cons (e : Event) (t : List Event) :
    remoteCalls (e :: t) =
      (match e with | .call r => [r] | .callAsync r => [r] | _ => []) ++ remoteCalls t := by
  cases e <;> rfl

@[simp]
theorem resolutions_nil : resolutions [] = [] := rfl

@[simp]
theorem resolutions_append (a b : List Event) :
    resolutions (a ++ b) = resolutions a ++ resolutions b := by simp [resolutions]

@[simp]
theorem resolutions_cons (e : Event) (t : List Event) :
    resolutions (e :: t) = (match e with | .set_value s => [s] | _ => []) ++ resolutions t := by
  cases e <;> rfl

@[simp]
theorem sleeps_nil : sleeps [] = [] := rfl

@[simp]
theorem sleeps_append (a b : List Event) :
    sleeps (a ++ b) = sleeps a ++ sleeps b := by simp [sleeps]

@[simp]
theorem sleeps_cons (e : Event) (t : List Event) :
    sleeps (e :: t) = (match e with | .sleep ms => [ms] | _ => []) ++ sleeps t := by
  cases e <;> rfl

@[simp]
theorem statsOps_ite_cout (c : Bool) (m : Message) :
    statsOps (if c = true then [Event.cout m] else []) = [] := by cases c <;> rfl

@[simp]
theorem remoteCalls_ite_cout (c : Bool) (m : Message) :
    remoteCalls (if c = true then [Event.cout m] else []) = [] := by cases c <;> rfl

@[simp]
theorem resolutions_ite_cout (c : Bool) (m : Message) :
    resolutions (if c = true then [Event.cout m] else []) = [] := by cases c <;> rfl

theorem fillTestDataArray_eq (n : Nat) :
    ∀ acc : TestDataArray, fillTestDataArray n acc = acc ++ List.replicate n fixedTestData := by
  induction n with
  | zero => intro acc; simp [fillTestDataArray]
  | succ n ih =>
    intro acc
    rw [fillTestDataArray, ih, List.replicate_succ]
    simp

theorem echoChain_length (next : Nat → Request) :
    ∀ (m index : Nat) (r : Request), (echoChain next m index r).length = m := by
  intro m
  induction m with
  | zero => intro index r; rfl
  | succ m ih => intro index r; simp [echoChain, ih]

theorem echoChain_head (next : Nat → Request) (m index : Nat) (r : Request) (hm : 0 < m) :
    (echoChain next m index r).head? = some r := by
  cases m with
  | zero => exact absurd hm (Nat.lt_irrefl 0)
  | succ m => rfl

theorem echoChain_succ (next : Nat → Request) :
    ∀ (m index : Nat) (r q : Request) (i : Nat),
      (echoChain next m index r)[i + 1]? = some q → q = next (index + i) := by
  intro m
  induction m with
  | zero => intro index r q i h; simp [echoChain] at h
  | succ m ih =>
    intro index r q i h
    cases m with
    | zero => simp [echoChain] at h
    | succ m =>
      cases i with
      | zero =>
        simp [echoChain] at h
        simp [h]
      | succ i =>
        have h2 : (echoChain next (m + 1) (index + 1) (next index))[i + 1]? = some q := by
          simpa [echoChain] using h
        have := ih (index + 1) (next index) q i h2
        rw [this]
        congr 1
        omega

theorem track_none (ops : List StatsOp) : ops.foldl track none = none := by
  induction ops with
  | nil => rfl
  | cons op ops ih => simpa [track] using ih

theorem track_allowed :
    ∀ (ops : List StatsOp) (s s1 : BenchmarkStats), ops.foldl track (some s) = some s1 →
      ∀ (pre : List StatsOp) (op : StatsOp) (post : List StatsOp), ops = pre ++ op :: post →
        Allowed (pre.foldl BenchmarkStats.apply s) op = true := by
  intro ops
  induction ops with
  | nil => intro s s1 _ pre op post h; simp at h
  | cons o ops ih =>
    intro s s1 h pre op post hd
    by_cases ha : Allowed s o = true
    · have h2 : ops.foldl track (some (s.apply o)) = some s1 := by
        simpa [track, ha] using h
      cases pre with
      | nil =>
        simp at hd
        rw [← hd.1]
        simpa using ha
      | cons p pre =>
        simp at hd
        rw [← hd.1]
        exact ih (s.apply o) s1 h2 pre op post hd.2
    · simp [track, ha, track_none] at h

theorem allowed_exclusive (s : BenchmarkStats) (op : StatsOp) (ha : Allowed s op = true)
    (hx : (s.creationOpen && s.transportOpen) = false) :
    ((s.apply op).creationOpen && (s.apply op).transportOpen) = false := by
  obtain ⟨cnt, co, tp, sp⟩ := s
  cases op <;> cases co <;> cases tp <;> simp_all [Allowed, BenchmarkStats.apply]

theorem track_exclusive :
    ∀ (ops : List StatsOp) (s s1 : BenchmarkStats), ops.foldl track (some s) = some s1 →
      (s.creationOpen && s.transportOpen) = false →
      ∀ (pre post : List StatsOp), ops = pre ++ post →
        ((pre.foldl BenchmarkStats.apply s).creationOpen &&
          (pre.foldl BenchmarkStats.apply s).transportOpen) = false := by
  intro ops
  induction ops with
  | nil =>
    intro s s1 _ hx pre post h
    have hpre : pre = [] := by
      cases pre with
      | nil => rfl
      | cons p pre => simp at h
    rw [hpre]
    simpa using hx
  | cons o ops ih =>
    intro s s1 h hx pre post hd
    cases pre with
    | nil => simpa using hx
    | cons p pre =>
      simp at hd
      by_cases ha : Allowed s o = true
      · have h2 : ops.foldl track (some (s.apply o)) = some s1 := by
          simpa [track, ha] using h
        rw [← hd.1]
        exact ih (s.apply o) s1 h2 (allowed_exclusive s o ha hx) pre post hd.2
      · simp [track, ha, track_none] at h

theorem first_failure (status : Nat → CallStatus) (n : Nat) :
    (∀ i, i < n → status i = .SUCCESS) ∨
      ∃ j, j < n ∧ status j ≠ .SUCCESS ∧ ∀ i, i < j → status i = .SUCCESS := by
  induction n with
  | zero => left; intro i hi; exact absurd hi (Nat.not_lt_zero i)
  | succ n ih =>
    rcases ih with h | ⟨j, hj, hf, hs⟩
    · by_cases hn : status n = .SUCCESS
      · left
        intro i hi
        rcases Nat.lt_succ_iff_lt_or_eq.mp hi with h1 | h1
        · exact h i h1
        · rw [h1]; exact hn
      · right
        exact ⟨n, Nat.lt_succ_self n, hn, h⟩
    · right
      exact ⟨j, Nat.lt_succ_of_lt hj, hf, hs⟩

/-! ## The blocking loops -/

theorem doEmptySendLoop_success (env : Environment) :
    ∀ (n : Nat) (cs : CallStatus) (w : World),
      (∀ i, i < n → env.callStatus (w.calls + i) = .SUCCESS) →
      w.benchmarkStats_.transportOpen = false → w.benchmarkStats_.creationOpen = false →
      ∃ ev, doEmptySendLoop env n cs w =
          (if n = 0 then cs else .SUCCESS,
            { w with calls := w.calls + n,
                     benchmarkStats_ :=
                       { w.benchmarkStats_ with sendCount := w.benchmarkStats_.sendCount + n },
                     trace := w.trace ++ ev }) ∧
        remoteCalls ev = echoChain (echoOf env .getEmptyResponse) n w.calls .getEmptyResponse ∧
        (statsOps ev).foldl track (some w.benchmarkStats_) =
          some { w.benchmarkStats_ with sendCount := w.benchmarkStats_.sendCount + n } ∧
        (statsOps ev).count .startTransport = n ∧
        (statsOps ev).count .stopTransport = n := by
  intro n
  induction n with
  | zero => intro cs w _ _ _; exact ⟨[], by simp [doEmptySendLoop, echoChain]⟩
  | succ n ih =>
    intro cs w h ho hc
    have h0 := h 0 (Nat.succ_pos n)
    obtain ⟨⟨cnt, co, tp, sp⟩, pr, pb, c, fl, tr⟩ := w
    simp only at ho hc h h0
    subst ho hc
    obtain ⟨ev, h1, h2, h3, h4, h5⟩ := ih .SUCCESS
      (addSendReplyDelta (stopTransport (getEmptyResponse env (startTransport
        ⟨⟨cnt, false, false, sp⟩, pr, pb, c, fl, tr⟩)).2))
      (by intro i hi
          have := h (i + 1) (Nat.succ_lt_succ hi)
          simpa [Nat.add_assoc, Nat.add_comm 1 i] using this)
      (by simp) (by simp)
    refine ⟨[.stats .startTransport, .call .getEmptyResponse, .stats .stopTransport,
      .stats .addSendReplyDelta] ++ ev, ?_, ?_, ?_, ?_, ?_⟩
    · rw [doEmptySendLoop]
      simp [Nat.add_assoc, Nat.add_comm 1 n] at h0 h1 ⊢
      simp [h0, h1]
    · simp at h2
      simp [h2, echoChain, echoOf]
    · simp [Nat.add_assoc, Nat.add_comm 1 n] at h3
      simp [track, Allowed, BenchmarkStats.apply, h3]
    · simp [h4]
    · simp [h5]

theorem doEmptySendLoop_failure (env : Environment) :
    ∀ (j n : Nat) (cs : CallStatus) (w : World), j < n →
      (∀ i, i < j → env.callStatus (w.calls + i) = .SUCCESS) →
      env.callStatus (w.calls + j) ≠ .SUCCESS →
      w.benchmarkStats_.transportOpen = false → w.benchmarkStats_.creationOpen = false →
      ∃ ev, doEmptySendLoop env n cs w =
          (env.callStatus (w.calls + j),
            { w with calls := w.calls + (j + 1),
                     benchmarkStats_ :=
                       { w.benchmarkStats_ with sendCount := w.benchmarkStats_.sendCount + j,
                                                transportOpen := true },
                     trace := w.trace ++ ev }) ∧
        remoteCalls ev =
          echoChain (echoOf env .getEmptyResponse) (j + 1) w.calls .getEmptyResponse ∧
        (statsOps ev).foldl track (some w.benchmarkStats_) =
          some { w.benchmarkStats_ with sendCount := w.benchmarkStats_.sendCount + j,
                                        transportOpen := true } ∧
        (statsOps ev).count .startTransport = j + 1 ∧
        (statsOps ev).count .stopTransport = j ∧
        ∃ ops, statsOps ev = ops ++ [.startTransport] := by
  intro j
  induction j with
  | zero =>
    intro n cs w hn _ hf ho hc
    obtain ⟨n, rfl⟩ : ∃ m, n = m + 1 := ⟨n - 1, by omega⟩
    obtain ⟨⟨cnt, co, tp, sp⟩, pr, pb, c, fl, tr⟩ := w
    simp only [Nat.add_zero] at ho hc hf
    subst ho hc
    refine ⟨[.stats .startTransport, .call .getEmptyResponse], ?_, ?_, ?_, ?_, ?_, [], ?_⟩
    · rw [doEmptySendLoop]
      simp [hf]
    · simp [echoChain]
    · simp [track, Allowed, BenchmarkStats.apply]
    · simp
    · simp
    · simp
  | succ j ih =>
    intro n cs w hn h hf ho hc
    obtain ⟨n, rfl⟩ : ∃ m, n = m + 1 := ⟨n - 1, by omega⟩
    have h0 := h 0 (Nat.succ_pos j)
    obtain ⟨⟨cnt, co, tp, sp⟩, pr, pb, c, fl, tr⟩ := w
    simp only at ho hc h h0 hf
    subst ho hc
    obtain ⟨ev, h1, h2, h3, h4, h5, ops, h6⟩ := ih n .SUCCESS
      (addSendReplyDelta (stopTransport (getEmptyResponse env (startTransport
        ⟨⟨cnt, false, false, sp⟩, pr, pb, c, fl, tr⟩)).2))
      (by omega)
      (by intro i hi
          have := h (i + 1) (Nat.succ_lt_succ hi)
          simpa [Nat.add_assoc, Nat.add_comm 1 i] using this)
      (by simpa [Nat.add_assoc, Nat.add_comm 1 j] using hf)
      (by simp) (by simp)
    refine ⟨[.stats .startTransport, .call .getEmptyResponse, .stats .stopTransport,
      .stats .addSendReplyDelta] ++ ev, ?_, ?_, ?_, ?_, ?_,
      [.startTransport, .stopTransport, .addSendReplyDelta] ++ ops, ?_⟩
    · rw [doEmptySendLoop]
      simp [Nat.add_assoc, Nat.add_comm 1 j] at h0 h1 ⊢
      simp [h0, h1]
      try omega
    · simp at h2
      simp [h2, echoChain, echoOf]
    · simp [Nat.add_assoc, Nat.add_comm 1 j] at h3
      simp [track, Allowed, BenchmarkStats.apply, h3]
    · simp [h4]
    · simp [h5]
    · simp [h6]

theorem doCopySendLoop_success (env : Environment) :
    ∀ (n : Nat) (cs : CallStatus) (testData : TestData) (w : World),
      (∀ i, i < n → env.callStatus (w.calls + i) = .SUCCESS) →
      w.benchmarkStats_.transportOpen = false → w.benchmarkStats_.creationOpen = false →
      ∃ ev, doCopySendLoop env n cs testData w =
          (if n = 0 then cs else .SUCCESS,
            { w with calls := w.calls + n,
                     benchmarkStats_ :=
                       { w.benchmarkStats_ with sendCount := w.benchmarkStats_.sendCount + n },
                     trace := w.trace ++ ev }) ∧
        remoteCalls ev = echoChain (echoOf env (.getTestDataCopy testData)) n w.calls
            (.getTestDataCopy testData) ∧
        (statsOps ev).foldl track (some w.benchmarkStats_) =
          some { w.benchmarkStats_ with sendCount := w.benchmarkStats_.sendCount + n } ∧
        (statsOps ev).count .startTransport = n ∧
        (statsOps ev).count .stopTransport = n := by
  intro n
  induction n with
  | zero => intro cs testData w _ _ _; exact ⟨[], by simp [doCopySendLoop, echoChain]⟩
  | succ n ih =>
    intro cs testData w h ho hc
    have h0 := h 0 (Nat.succ_pos n)
    obtain ⟨⟨cnt, co, tp, sp⟩, pr, pb, c, fl, tr⟩ := w
    simp only at ho hc h h0
    subst ho hc
    obtain ⟨ev, h1, h2, h3, h4, h5⟩ := ih .SUCCESS (env.testDataReply c)
      (addSendReplyDelta (stopCreation (startCreation (stopTransport
        (getTestDataCopy env testData (startTransport
          ⟨⟨cnt, false, false, sp⟩, pr, pb, c, fl, tr⟩)).2))))
      (by intro i hi
          have := h (i + 1) (Nat.succ_lt_succ hi)
          simpa [Nat.add_assoc, Nat.add_comm 1 i] using this)
      (by simp) (by simp)
    refine ⟨[.stats .startTransport, .call (.getTestDataCopy testData), .stats .stopTransport,
      .stats .startCreation, .stats .stopCreation, .stats .addSendReplyDelta] ++ ev,
      ?_, ?_, ?_, ?_, ?_⟩
    · rw [doCopySendLoop]
      simp [Nat.add_assoc, Nat.add_comm 1 n] at h0 h1 ⊢
      simp [h0, h1]
      try omega
    · simp at h2
      simp [h2, echoChain, echoOf]
    · simp [Nat.add_assoc, Nat.add_comm 1 n] at h3
      simp [track, Allowed, BenchmarkStats.apply, h3]
    · simp [h4]
    · simp [h5]

theorem doCopySendLoop_failure (env : Environment) :
    ∀ (j n : Nat) (cs : CallStatus) (testData : TestData) (w : World), j < n →
      (∀ i, i < j → env.callStatus (w.calls + i) = .SUCCESS) →
      env.callStatus (w.calls + j) ≠ .SUCCESS →
      w.benchmarkStats_.transportOpen = false → w.benchmarkStats_.creationOpen = false →
      ∃ ev, doCopySendLoop env n cs testData w =
          (env.callStatus (w.calls + j),
            { w with calls := w.calls + (j + 1),
                     benchmarkStats_ :=
                       { w.benchmarkStats_ with sendCount := w.benchmarkStats_.sendCount + j,
                                                transportOpen := true },
                     trace := w.trace ++ ev }) ∧
        remoteCalls ev = echoChain (echoOf env (.getTestDataCopy testData)) (j + 1) w.calls
            (.getTestDataCopy testData) ∧
        (statsOps ev).foldl track (some w.benchmarkStats_) =
          some { w.benchmarkStats_ with sendCount := w.benchmarkStats_.sendCount + j,
                                        transportOpen := true } ∧
        (statsOps ev).count .startTransport = j + 1 ∧
        (statsOps ev).count .stopTransport = j ∧
        ∃ ops, statsOps ev = ops ++ [.startTransport] := by
  intro j
  induction j with
  | zero =>
    intro n cs testData w hn _ hf ho hc
    obtain ⟨n, rfl⟩ : ∃ m, n = m + 1 := ⟨n - 1, by omega⟩
    obtain ⟨⟨cnt, co, tp, sp⟩, pr, pb, c, fl, tr⟩ := w
    simp only [Nat.add_zero] at ho hc hf
    subst ho hc
    refine ⟨[.stats .startTransport, .call (.getTestDataCopy testData)], ?_, ?_, ?_, ?_, ?_, [], ?_⟩
    · rw [doCopySendLoop]
      simp [hf]
    · simp [echoChain]
    · simp [track, Allowed, BenchmarkStats.apply]
    · simp
    · simp
    · simp
  | succ j ih =>
    intro n cs testData w hn h hf ho hc
    obtain ⟨n, rfl⟩ : ∃ m, n = m + 1 := ⟨n - 1, by omega⟩
    have h0 := h 0 (Nat.succ_pos j)
    obtain ⟨⟨cnt, co, tp, sp⟩, pr, pb, c, fl, tr⟩ := w
    simp only at ho hc h h0 hf
    subst ho hc
    obtain ⟨ev, h1, h2, h3, h4, h5, ops, h6⟩ := ih n .SUCCESS (env.testDataReply c)
      (addSendReplyDelta (stopCreation (startCreation (stopTransport
        (getTestDataCopy env testData (startTransport
          ⟨⟨cnt, false, false, sp⟩, pr, pb, c, fl, tr⟩)).2))))
      (by omega)
      (by intro i hi
          have := h (i + 1) (Nat.succ_lt_succ hi)
          simpa [Nat.add_assoc, Nat.add_comm 1 i] using this)
      (by simpa [Nat.add_assoc, Nat.add_comm 1 j] using hf)
      (by simp) (by simp)
    refine ⟨[.stats .startTransport, .call (.getTestDataCopy testData), .stats .stopTransport,
      .stats .startCreation, .stats .stopCreation, .stats .addSendReplyDelta] ++ ev,
      ?_, ?_, ?_, ?_, ?_,
      [.startTransport, .stopTransport, .startCreation, .stopCreation,
        .addSendReplyDelta] ++ ops, ?_⟩
    · rw [doCopySendLoop]
      simp [Nat.add_assoc, Nat.add_comm 1 j] at h0 h1 ⊢
      simp [h0, h1]
      try omega
    · simp at h2
      simp [h2, echoChain, echoOf]
    · simp [Nat.add_assoc, Nat.add_comm 1 j] at h3
      simp [track, Allowed, BenchmarkStats.apply, h3]
    · simp [h4]
    · simp [h5]
    · simp [h6]

theorem doCopiesSendLoop_success (env : Environment) :
    ∀ (n : Nat) (cs : CallStatus) (testDataArray : TestDataArray) (w : World),
      (∀ i, i < n → env.callStatus (w.calls + i) = .SUCCESS) →
      w.benchmarkStats_.transportOpen = false → w.benchmarkStats_.creationOpen = false →
      ∃ ev, doCopiesSendLoop env n cs testDataArray w =
          (if n = 0 then cs else .SUCCESS,
            { w with calls := w.calls + n,
                     benchmarkStats_ :=
                       { w.benchmarkStats_ with sendCount := w.benchmarkStats_.sendCount + n },
                     trace := w.trace ++ ev }) ∧
        remoteCalls ev = echoChain (echoOf env (.getTestDataArrayCopy testDataArray)) n w.calls
            (.getTestDataArrayCopy testDataArray) ∧
        (statsOps ev).foldl track (some w.benchmarkStats_) =
          some { w.benchmarkStats_ with sendCount := w.benchmarkStats_.sendCount + n } ∧
        (statsOps ev).count .startTransport = n ∧
        (statsOps ev).count .stopTransport = n := by
  intro n
  induction n with
  | zero => intro cs testDataArray w _ _ _; exact ⟨[], by simp [doCopiesSendLoop, echoChain]⟩
  | succ n ih =>
    intro cs testDataArray w h ho hc
    have h0 := h 0 (Nat.succ_pos n)
    obtain ⟨⟨cnt, co, tp, sp⟩, pr, pb, c, fl, tr⟩ := w
    simp only at ho hc h h0
    subst ho hc
    obtain ⟨ev, h1, h2, h3, h4, h5⟩ := ih .SUCCESS (env.testDataArrayReply c)
      (addSendReplyDelta (stopCreation (startCreation (stopTransport
        (getTestDataArrayCopy env testDataArray (startTransport
          ⟨⟨cnt, false, false, sp⟩, pr, pb, c, fl, tr⟩)).2))))
      (by intro i hi
          have := h (i + 1) (Nat.succ_lt_succ hi)
          simpa [Nat.add_assoc, Nat.add_comm 1 i] using this)
      (by simp) (by simp)
    refine ⟨[.stats .startTransport, .call (.getTestDataArrayCopy testDataArray), .stats
        .stopTransport,
      .stats .startCreation, .stats .stopCreation, .stats .addSendReplyDelta] ++ ev,
      ?_, ?_, ?_, ?_, ?_⟩
    · rw [doCopiesSendLoop]
      simp [Nat.add_assoc, Nat.add_comm 1 n] at h0 h1 ⊢
      simp [h0, h1]
      try omega
    · simp at h2
      simp [h2, echoChain, echoOf]
    · simp [Nat.add_assoc, Nat.add_comm 1 n] at h3
      simp [track, Allowed, BenchmarkStats.apply, h3]
    · simp [h4]
    · simp [h5]

theorem doCopiesSendLoop_failure (env : Environment) :
    ∀ (j n : Nat) (cs : CallStatus) (testDataArray : TestDataArray) (w : World), j < n →
      (∀ i, i < j → env.callStatus (w.calls + i) = .SUCCESS) →
      env.callStatus (w.calls + j) ≠ .SUCCESS →
      w.benchmarkStats_.transportOpen = false → w.benchmarkStats_.creationOpen = false →
      ∃ ev, doCopiesSendLoop env n cs testDataArray w =
          (env.callStatus (w.calls + j),
            { w with calls := w.calls + (j + 1),
                     benchmarkStats_ :=
                       { w.benchmarkStats_ with sendCount := w.benchmarkStats_.sendCount + j,
                                                transportOpen := true },
                     trace := w.trace ++ ev }) ∧
        remoteCalls ev = echoChain (echoOf env (.getTestDataArrayCopy testDataArray)) (j + 1)
            w.calls (.getTestDataArrayCopy testDataArray) ∧
        (statsOps ev).foldl track (some w.benchmarkStats_) =
          some { w.benchmarkStats_ with sendCount := w.benchmarkStats_.sendCount + j,
                                        transportOpen := true } ∧
        (statsOps ev).count .startTransport = j + 1 ∧
        (statsOps ev).count .stopTransport = j ∧
        ∃ ops, statsOps ev = ops ++ [.startTransport] := by
  intro j
  induction j with
  | zero =>
    intro n cs testDataArray w hn _ hf ho hc
    obtain ⟨n, rfl⟩ : ∃ m, n = m + 1 := ⟨n - 1, by omega⟩
    obtain ⟨⟨cnt, co, tp, sp⟩, pr, pb, c, fl, tr⟩ := w
    simp only [Nat.add_zero] at ho hc hf
    subst ho hc
    refine ⟨[.stats .startTransport, .call (.getTestDataArrayCopy testDataArray)], ?_, ?_, ?_, ?_,
        ?_, [], ?_⟩
    · rw [doCopiesSendLoop]
      simp [hf]
    · simp [echoChain]
    · simp [track, Allowed, BenchmarkStats.apply]
    · simp
    · simp
    · simp
  | succ j ih =>
    intro n cs testDataArray w hn h hf ho hc
    obtain ⟨n, rfl⟩ : ∃ m, n = m + 1 := ⟨n - 1, by omega⟩
    have h0 := h 0 (Nat.succ_pos j)
    obtain ⟨⟨cnt, co, tp, sp⟩, pr, pb, c, fl, tr⟩ := w
    simp only at ho hc h h0 hf
    subst ho hc
    obtain ⟨ev, h1, h2, h3, h4, h5, ops, h6⟩ := ih n .SUCCESS (env.testDataArrayReply c)
      (addSendReplyDelta (stopCreation (startCreation (stopTransport
        (getTestDataArrayCopy env testDataArray (startTransport
          ⟨⟨cnt, false, false, sp⟩, pr, pb, c, fl, tr⟩)).2))))
      (by omega)
      (by intro i hi
          have := h (i + 1) (Nat.succ_lt_succ hi)
          simpa [Nat.add_assoc, Nat.add_comm 1 i] using this)
      (by simpa [Nat.add_assoc, Nat.add_comm 1 j] using hf)
      (by simp) (by simp)
    refine ⟨[.stats .startTransport, .call (.getTestDataArrayCopy testDataArray), .stats
        .stopTransport,
      .stats .startCreation, .stats .stopCreation, .stats .addSendReplyDelta] ++ ev,
      ?_, ?_, ?_, ?_, ?_,
      [.startTransport, .stopTransport, .startCreation, .stopCreation,
        .addSendReplyDelta] ++ ops, ?_⟩
    · rw [doCopiesSendLoop]
      simp [Nat.add_assoc, Nat.add_comm 1 j] at h0 h1 ⊢
      simp [h0, h1]
      try omega
    · simp at h2
      simp [h2, echoChain, echoOf]
    · simp [Nat.add_assoc, Nat.add_comm 1 j] at h3
      simp [track, Allowed, BenchmarkStats.apply, h3]
    · simp [h4]
    · simp [h5]
    · simp [h6]

/-! ## The chained loops -/

theorem dispatch_idle (b : Benchmark) (env : Environment) (deliveries : Nat) (w : World)
    (h : w.inFlight = none) : dispatch b env deliveries w = w := by
  cases deliveries with
  | zero => rfl
  | succ d => simp [dispatch, h]

theorem dispatch_chain (b : Benchmark) (env : Environment) :
    ∀ (j fuel : Nat) (w : World) (index : Nat) (r : Request),
      w.inFlight = some (index, r) → w.calls = index + 1 →
      w.benchmarkStats_.transportOpen = true → w.benchmarkStats_.creationOpen = false →
      w.asyncPromise_ = none →
      (∀ i, i < j → env.callStatus (index + i) = .SUCCESS ∧
        w.benchmarkStats_.sendCount + i + 1 < b.sendCount_) →
      (env.callStatus (index + j) ≠ .SUCCESS ∨
        b.sendCount_ ≤ w.benchmarkStats_.sendCount + j + 1) →
      j < fuel →
      ∃ ev, dispatch b env fuel w =
          { w with inFlight := none,
                   asyncPromise_ := some (env.callStatus (index + j)),
                   calls := w.calls + j,
                   benchmarkStats_ :=
                     { w.benchmarkStats_ with
                         sendCount := w.benchmarkStats_.sendCount + (j + 1),
                         transportOpen := false },
                   trace := w.trace ++ ev ++ [.set_value (env.callStatus (index + j))] } ∧
        resolutions ev = [] ∧
        remoteCalls ev = echoChain (echoOf env r) j (index + 1) (echoOf env r index) ∧
        (statsOps ev).foldl track (some w.benchmarkStats_) =
          some { w.benchmarkStats_ with
                   sendCount := w.benchmarkStats_.sendCount + (j + 1),
                   transportOpen := false } ∧
        (statsOps ev).count .startTransport = j ∧
        (statsOps ev).count .stopTransport = j + 1 := by
  intro j
  induction j with
  | zero =>
    intro fuel w index r hfl hcalls ho hc hp _ hstop hfuel
    obtain ⟨fuel, rfl⟩ : ∃ m, fuel = m + 1 := ⟨fuel - 1, by omega⟩
    obtain ⟨⟨cnt, co, tp, sp⟩, pr, pb, c, fl, tr⟩ := w
    simp only [Nat.add_zero] at hfl hcalls ho hc hp hstop
    subst hfl hcalls ho hc hp
    have hcond : ¬ (env.callStatus index = .SUCCESS ∧ cnt + 1 < b.sendCount_) := by
      rintro ⟨h1, h2⟩
      rcases hstop with h | h
      · exact h h1
      · omega
    rcases r with _ | td | tda
    · refine ⟨[.stats .stopTransport, .stats .addSendReplyDelta], ?_, ?_, ?_, ?_, ?_, ?_⟩
      · rw [dispatch]
        simp only [deliverReply, emptyAsyncSendBenchmarkCallback]
        rw [dispatch_idle] <;> simp [hcond]
      · simp
      · simp [echoChain]
      · simp [track, Allowed, BenchmarkStats.apply]
      · simp
      · simp
    · refine ⟨[.stats .stopTransport, .stats .addSendReplyDelta, .stats .startCreation,
        .stats .stopCreation], ?_, ?_, ?_, ?_, ?_, ?_⟩
      · rw [dispatch]
        simp only [deliverReply, copyAsyncSendBenchmarkCallback]
        rw [dispatch_idle] <;> simp [hcond]
      · simp
      · simp [echoChain]
      · simp [track, Allowed, BenchmarkStats.apply]
      · simp
      · simp
    · refine ⟨[.stats .stopTransport, .stats .addSendReplyDelta, .stats .startCreation,
        .stats .stopCreation], ?_, ?_, ?_, ?_, ?_, ?_⟩
      · rw [dispatch]
        simp only [deliverReply, copiesAsyncSendBenchmarkCallback]
        rw [dispatch_idle] <;> simp [hcond]
      · simp
      · simp [echoChain]
      · simp [track, Allowed, BenchmarkStats.apply]
      · simp
      · simp
  | succ j ih =>
    intro fuel w index r hfl hcalls ho hc hp hgo hstop hfuel
    obtain ⟨fuel, rfl⟩ : ∃ m, fuel = m + 1 := ⟨fuel - 1, by omega⟩
    obtain ⟨⟨cnt, co, tp, sp⟩, pr, pb, c, fl, tr⟩ := w
    simp only at hfl hcalls ho hc hp hstop hgo
    subst hfl hcalls ho hc hp
    have hcond : env.callStatus index = .SUCCESS ∧ cnt + 1 < b.sendCount_ := by
      simpa using hgo 0 (Nat.succ_pos j)
    have hgo2 : ∀ i, i < j → env.callStatus (index + 1 + i) = .SUCCESS ∧
        cnt + 1 + i + 1 < b.sendCount_ := by
      intro i hi
      have := hgo (i + 1) (Nat.succ_lt_succ hi)
      have e1 : index + 1 + i = index + (i + 1) := by omega
      have e2 : cnt + 1 + i + 1 = cnt + (i + 1) + 1 := by omega
      rw [e1, e2]
      exact this
    have hstop2 : env.callStatus (index + 1 + j) ≠ .SUCCESS ∨
        b.sendCount_ ≤ cnt + 1 + j + 1 := by
      have e1 : index + 1 + j = index + (j + 1) := by omega
      have e2 : cnt + 1 + j + 1 = cnt + (j + 1) + 1 := by omega
      rw [e1, e2]
      exact hstop
    rcases r with _ | td | tda
    · obtain ⟨ev, h1, h2, h3, h4, h5, h6⟩ := ih fuel
        (deliverReply b env index .getEmptyResponse
          ⟨⟨cnt, false, true, sp⟩, none, pb, index + 1, some (index, .getEmptyResponse), tr⟩)
        (index + 1) .getEmptyResponse
        (by simp [deliverReply, emptyAsyncSendBenchmarkCallback, hcond])
        (by simp [deliverReply, emptyAsyncSendBenchmarkCallback, hcond])
        (by simp [deliverReply, emptyAsyncSendBenchmarkCallback, hcond])
        (by simp [deliverReply, emptyAsyncSendBenchmarkCallback, hcond])
        (by simp [deliverReply, emptyAsyncSendBenchmarkCallback, hcond])
        (by simpa [deliverReply, emptyAsyncSendBenchmarkCallback, hcond] using hgo2)
        (by simpa [deliverReply, emptyAsyncSendBenchmarkCallback, hcond] using hstop2)
        (by omega)
      refine ⟨[.stats .stopTransport, .stats .addSendReplyDelta, .stats .startTransport,
        .callAsync .getEmptyResponse] ++ ev, ?_, ?_, ?_, ?_, ?_, ?_⟩
      · rw [dispatch]
        simp [deliverReply, emptyAsyncSendBenchmarkCallback, hcond, Nat.add_assoc,
          Nat.add_comm 1 j] at h1 ⊢
        simp [h1]
        try omega
      · simp [h2]
      · simp [echoChain, echoOf, h3]
      · simp [deliverReply, emptyAsyncSendBenchmarkCallback, hcond, Nat.add_assoc,
          Nat.add_comm 1 j] at h4
        simp [track, Allowed, BenchmarkStats.apply, h4]
        try omega
      · simp [h5]
      · simp [h6]
    · obtain ⟨ev, h1, h2, h3, h4, h5, h6⟩ := ih fuel
        (deliverReply b env index (.getTestDataCopy td)
          ⟨⟨cnt, false, true, sp⟩, none, pb, index + 1, some (index, .getTestDataCopy td), tr⟩)
        (index + 1) (.getTestDataCopy (env.testDataReply index))
        (by simp [deliverReply, copyAsyncSendBenchmarkCallback, hcond])
        (by simp [deliverReply, copyAsyncSendBenchmarkCallback, hcond])
        (by simp [deliverReply, copyAsyncSendBenchmarkCallback, hcond])
        (by simp [deliverReply, copyAsyncSendBenchmarkCallback, hcond])
        (by simp [deliverReply, copyAsyncSendBenchmarkCallback, hcond])
        (by simpa [deliverReply, copyAsyncSendBenchmarkCallback, hcond] using hgo2)
        (by simpa [deliverReply, copyAsyncSendBenchmarkCallback, hcond] using hstop2)
        (by omega)
      refine ⟨[.stats .stopTransport, .stats .addSendReplyDelta, .stats .startCreation,
        .stats .stopCreation, .stats .startTransport, .callAsync (.getTestDataCopy
            (env.testDataReply index))] ++ ev, ?_, ?_, ?_, ?_, ?_, ?_⟩
      · rw [dispatch]
        simp [deliverReply, copyAsyncSendBenchmarkCallback, hcond, Nat.add_assoc,
          Nat.add_comm 1 j] at h1 ⊢
        simp [h1]
        try omega
      · simp [h2]
      · simp [echoChain, echoOf, h3]
      · simp [deliverReply, copyAsyncSendBenchmarkCallback, hcond, Nat.add_assoc,
          Nat.add_comm 1 j] at h4
        simp [track, Allowed, BenchmarkStats.apply, h4]
        try omega
      · simp [h5]
      · simp [h6]
    · obtain ⟨ev, h1, h2, h3, h4, h5, h6⟩ := ih fuel
        (deliverReply b env index (.getTestDataArrayCopy tda)
          ⟨⟨cnt, false, true, sp⟩, none, pb, index + 1, some (index, .getTestDataArrayCopy tda),
              tr⟩)
        (index + 1) (.getTestDataArrayCopy (env.testDataArrayReply index))
        (by simp [deliverReply, copiesAsyncSendBenchmarkCallback, hcond])
        (by simp [deliverReply, copiesAsyncSendBenchmarkCallback, hcond])
        (by simp [deliverReply, copiesAsyncSendBenchmarkCallback, hcond])
        (by simp [deliverReply, copiesAsyncSendBenchmarkCallback, hcond])
        (by simp [deliverReply, copiesAsyncSendBenchmarkCallback, hcond])
        (by simpa [deliverReply, copiesAsyncSendBenchmarkCallback, hcond] using hgo2)
        (by simpa [deliverReply, copiesAsyncSendBenchmarkCallback, hcond] using hstop2)
        (by omega)
      refine ⟨[.stats .stopTransport, .stats .addSendReplyDelta, .stats .startCreation,
        .stats .stopCreation, .stats .startTransport, .callAsync (.getTestDataArrayCopy
            (env.testDataArrayReply index))] ++ ev, ?_, ?_, ?_, ?_, ?_, ?_⟩
      · rw [dispatch]
        simp [deliverReply, copiesAsyncSendBenchmarkCallback, hcond, Nat.add_assoc,
          Nat.add_comm 1 j] at h1 ⊢
        simp [h1]
        try omega
      · simp [h2]
      · simp [echoChain, echoOf, h3]
      · simp [deliverReply, copiesAsyncSendBenchmarkCallback, hcond, Nat.add_assoc,
          Nat.add_comm 1 j] at h4
        simp [track, Allowed, BenchmarkStats.apply, h4]
        try omega
      · simp [h5]
      · simp [h6]

/-! ## The dispatch of `run()` -/

theorem dispatchSendType_blocking_success (b : Benchmark) (env : Environment)
    (deliveries : Nat) (w : World)
    (hrec : Recognised b.sendType_) (hmode : b.async_ = false)
    (hs : ∀ i, i < b.sendCount_ → env.callStatus (w.calls + i) = .SUCCESS)
    (ho : w.benchmarkStats_.transportOpen = false)
    (hc : w.benchmarkStats_.creationOpen = false) :
    ∃ ev, dispatchSendType b env deliveries w =
        (some (if b.sendCount_ = 0 then env.indeterminate else .SUCCESS),
          { w with calls := w.calls + b.sendCount_,
                   benchmarkStats_ :=
                     { w.benchmarkStats_ with
                         sendCount := w.benchmarkStats_.sendCount + b.sendCount_ },
                   trace := w.trace ++ ev }) ∧
      remoteCalls ev =
        echoChain (echoOf env (initialRequest b)) b.sendCount_ w.calls (initialRequest b) ∧
      (statsOps ev).foldl track (some w.benchmarkStats_) =
        some { w.benchmarkStats_ with
                 sendCount := w.benchmarkStats_.sendCount + b.sendCount_ } ∧
      (statsOps ev).count .startTransport = b.sendCount_ ∧
      (statsOps ev).count .stopTransport = b.sendCount_ := by
  obtain ⟨st, N, size, vb, asy⟩ := b
  obtain ⟨⟨cnt, co, tp, sp⟩, pr, pb, c, fl, tr⟩ := w
  simp only at hrec hmode hs ho hc
  subst hmode ho hc
  cases st with
  | other raw => exact absurd hrec (by simp [Recognised])
  | SEND_TYPE_EMPTY =>
    obtain ⟨ev, h1, h2, h3, h4, h5⟩ := doEmptySendLoop_success env N env.indeterminate
      ⟨⟨cnt, false, false, sp⟩, pr, pb, c, fl, tr⟩ hs rfl rfl
    refine ⟨ev, ?_, ?_, ?_, ?_, ?_⟩
    · simp [dispatchSendType, doEmptySendBenchmark, h1]
    · simpa [initialRequest] using h2
    · simpa using h3
    · exact h4
    · exact h5
  | SEND_TYPE_COPY =>
    cases vb with
    | false =>
      obtain ⟨ev, h1, h2, h3, h4, h5⟩ := doCopySendLoop_success env N env.indeterminate
        fixedTestData
        ⟨⟨cnt, false, false, sp⟩, pr, pb, c, fl,
          tr ++ [.stats .startCreation, .stats .stopCreation]⟩ hs rfl rfl
      refine ⟨[.stats .startCreation, .stats .stopCreation] ++ ev, ?_, ?_, ?_, ?_, ?_⟩
      · simp [dispatchSendType, doCopySendBenchmark, createTestData] at h1 ⊢
        simp [h1]
      · simpa [initialRequest] using h2
      · simpa [track, Allowed, BenchmarkStats.apply] using h3
      · simpa using h4
      · simpa using h5
    | true =>
      obtain ⟨ev, h1, h2, h3, h4, h5⟩ := doCopySendLoop_success env N env.indeterminate
        fixedTestData
        ⟨⟨cnt, false, false, sp⟩, pr, pb, c, fl,
          tr ++ [.cout .creatingTestData, .stats .startCreation, .stats .stopCreation]⟩
        hs rfl rfl
      refine ⟨[.cout .creatingTestData, .stats .startCreation, .stats .stopCreation] ++ ev,
        ?_, ?_, ?_, ?_, ?_⟩
      · simp [dispatchSendType, doCopySendBenchmark, createTestData] at h1 ⊢
        simp [h1]
      · simpa [initialRequest] using h2
      · simpa [track, Allowed, BenchmarkStats.apply] using h3
      · simpa using h4
      · simpa using h5
  | SEND_TYPE_COPIES =>
    cases vb with
    | false =>
      obtain ⟨ev, h1, h2, h3, h4, h5⟩ := doCopiesSendLoop_success env N env.indeterminate
        (List.replicate size fixedTestData)
        ⟨⟨cnt, false, false, sp⟩, pr, pb, c, fl,
          tr ++ [.stats .startCreation, .stats .stopCreation]⟩ hs rfl rfl
      refine ⟨[.stats .startCreation, .stats .stopCreation] ++ ev, ?_, ?_, ?_, ?_, ?_⟩
      · simp [dispatchSendType, doCopiesSendBenchmark, createTestDataArray, fillTestDataArray_eq]
            at h1 ⊢
        simp [h1]
      · simpa [initialRequest] using h2
      · simpa [track, Allowed, BenchmarkStats.apply] using h3
      · simpa using h4
      · simpa using h5
    | true =>
      obtain ⟨ev, h1, h2, h3, h4, h5⟩ := doCopiesSendLoop_success env N env.indeterminate
        (List.replicate size fixedTestData)
        ⟨⟨cnt, false, false, sp⟩, pr, pb, c, fl,
          tr ++ [.cout .creatingTestDataArray, .stats .startCreation, .stats .stopCreation]⟩
        hs rfl rfl
      refine ⟨[.cout .creatingTestDataArray, .stats .startCreation, .stats .stopCreation] ++ ev,
        ?_, ?_, ?_, ?_, ?_⟩
      · simp [dispatchSendType, doCopiesSendBenchmark, createTestDataArray, fillTestDataArray_eq]
            at h1 ⊢
        simp [h1]
      · simpa [initialRequest] using h2
      · simpa [track, Allowed, BenchmarkStats.apply] using h3
      · simpa using h4
      · simpa using h5

theorem dispatchSendType_blocking_failure (b : Benchmark) (env : Environment)
    (deliveries : Nat) (w : World) (j : Nat)
    (hrec : Recognised b.sendType_) (hmode : b.async_ = false) (hj : j < b.sendCount_)
    (hs : ∀ i, i < j → env.callStatus (w.calls + i) = .SUCCESS)
    (hf : env.callStatus (w.calls + j) ≠ .SUCCESS)
    (ho : w.benchmarkStats_.transportOpen = false)
    (hc : w.benchmarkStats_.creationOpen = false) :
    ∃ ev, dispatchSendType b env deliveries w =
        (some (env.callStatus (w.calls + j)),
          { w with calls := w.calls + (j + 1),
                   benchmarkStats_ :=
                     { w.benchmarkStats_ with
                         sendCount := w.benchmarkStats_.sendCount + j,
                         transportOpen := true },
                   trace := w.trace ++ ev }) ∧
      remoteCalls ev =
        echoChain (echoOf env (initialRequest b)) (j + 1) w.calls (initialRequest b) ∧
      (statsOps ev).foldl track (some w.benchmarkStats_) =
        some { w.benchmarkStats_ with
                 sendCount := w.benchmarkStats_.sendCount + j, transportOpen := true } ∧
      (statsOps ev).count .startTransport = j + 1 ∧
      (statsOps ev).count .stopTransport = j ∧
      ∃ ops, statsOps ev = ops ++ [.startTransport] := by
  obtain ⟨st, N, size, vb, asy⟩ := b
  obtain ⟨⟨cnt, co, tp, sp⟩, pr, pb, c, fl, tr⟩ := w
  simp only at hrec hmode hs ho hc hf hj
  subst hmode ho hc
  cases st with
  | other raw => exact absurd hrec (by simp [Recognised])
  | SEND_TYPE_EMPTY =>
    obtain ⟨ev, h1, h2, h3, h4, h5, ops, h6⟩ := doEmptySendLoop_failure env j N
      env.indeterminate ⟨⟨cnt, false, false, sp⟩, pr, pb, c, fl, tr⟩ hj hs hf rfl rfl
    refine ⟨ev, ?_, ?_, ?_, ?_, ?_, ops, h6⟩
    · simp [dispatchSendType, doEmptySendBenchmark, h1]
    · simpa [initialRequest] using h2
    · simpa using h3
    · exact h4
    · exact h5
  | SEND_TYPE_COPY =>
    cases vb with
    | false =>
      obtain ⟨ev, h1, h2, h3, h4, h5, ops, h6⟩ := doCopySendLoop_failure env j N
        env.indeterminate fixedTestData
        ⟨⟨cnt, false, false, sp⟩, pr, pb, c, fl,
          tr ++ [.stats .startCreation, .stats .stopCreation]⟩ hj hs hf rfl rfl
      refine ⟨[.stats .startCreation, .stats .stopCreation] ++ ev, ?_, ?_, ?_, ?_, ?_,
        [.startCreation, .stopCreation] ++ ops, ?_⟩
      · simp [dispatchSendType, doCopySendBenchmark, createTestData] at h1 ⊢
        simp [h1]
      · simpa [initialRequest] using h2
      · simpa [track, Allowed, BenchmarkStats.apply] using h3
      · simpa using h4
      · simpa using h5
      · simp [h6]
    | true =>
      obtain ⟨ev, h1, h2, h3, h4, h5, ops, h6⟩ := doCopySendLoop_failure env j N
        env.indeterminate fixedTestData
        ⟨⟨cnt, false, false, sp⟩, pr, pb, c, fl,
          tr ++ [.cout .creatingTestData, .stats .startCreation, .stats .stopCreation]⟩
        hj hs hf rfl rfl
      refine ⟨[.cout .creatingTestData, .stats .startCreation, .stats .stopCreation] ++ ev,
        ?_, ?_, ?_, ?_, ?_, [.startCreation, .stopCreation] ++ ops, ?_⟩
      · simp [dispatchSendType, doCopySendBenchmark, createTestData] at h1 ⊢
        simp [h1]
      · simpa [initialRequest] using h2
      · simpa [track, Allowed, BenchmarkStats.apply] using h3
      · simpa using h4
      · simpa using h5
      · simp [h6]
  | SEND_TYPE_COPIES =>
    cases vb with
    | false =>
      obtain ⟨ev, h1, h2, h3, h4, h5, ops, h6⟩ := doCopiesSendLoop_failure env j N
        env.indeterminate (List.replicate size fixedTestData)
        ⟨⟨cnt, false, false, sp⟩, pr, pb, c, fl,
          tr ++ [.stats .startCreation, .stats .stopCreation]⟩ hj hs hf rfl rfl
      refine ⟨[.stats .startCreation, .stats .stopCreation] ++ ev, ?_, ?_, ?_, ?_, ?_,
        [.startCreation, .stopCreation] ++ ops, ?_⟩
      · simp [dispatchSendType, doCopiesSendBenchmark, createTestDataArray, fillTestDataArray_eq]
            at h1 ⊢
        simp [h1]
      · simpa [initialRequest] using h2
      · simpa [track, Allowed, BenchmarkStats.apply] using h3
      · simpa using h4
      · simpa using h5
      · simp [h6]
    | true =>
      obtain ⟨ev, h1, h2, h3, h4, h5, ops, h6⟩ := doCopiesSendLoop_failure env j N
        env.indeterminate (List.replicate size fixedTestData)
        ⟨⟨cnt, false, false, sp⟩, pr, pb, c, fl,
          tr ++ [.cout .creatingTestDataArray, .stats .startCreation, .stats .stopCreation]⟩
        hj hs hf rfl rfl
      refine ⟨[.cout .creatingTestDataArray, .stats .startCreation, .stats .stopCreation] ++ ev,
        ?_, ?_, ?_, ?_, ?_, [.startCreation, .stopCreation] ++ ops, ?_⟩
      · simp [dispatchSendType, doCopiesSendBenchmark, createTestDataArray, fillTestDataArray_eq]
            at h1 ⊢
        simp [h1]
      · simpa [initialRequest] using h2
      · simpa [track, Allowed, BenchmarkStats.apply] using h3
      · simpa using h4
      · simpa using h5
      · simp [h6]

theorem dispatchSendType_chained (b : Benchmark) (env : Environment)
    (deliveries : Nat) (w : World) (j : Nat)
    (hrec : Recognised b.sendType_) (hmode : b.async_ = true)
    (hgo : ∀ i, i < j → env.callStatus (w.calls + i) = .SUCCESS ∧
      w.benchmarkStats_.sendCount + i + 1 < b.sendCount_)
    (hstop : env.callStatus (w.calls + j) ≠ .SUCCESS ∨
      b.sendCount_ ≤ w.benchmarkStats_.sendCount + j + 1)
    (hfuel : j < deliveries)
    (ho : w.benchmarkStats_.transportOpen = false)
    (hc : w.benchmarkStats_.creationOpen = false)
    (hp : w.asyncPromise_ = none) :
    ∃ ev, dispatchSendType b env deliveries w =
        (some (env.callStatus (w.calls + j)),
          { w with inFlight := none,
                   asyncPromise_ := some (env.callStatus (w.calls + j)),
                   calls := w.calls + (j + 1),
                   benchmarkStats_ :=
                     { w.benchmarkStats_ with
                         sendCount := w.benchmarkStats_.sendCount + (j + 1) },
                   trace := w.trace ++ ev ++ [.set_value (env.callStatus (w.calls + j))] }) ∧
      resolutions ev = [] ∧
      remoteCalls ev =
        echoChain (echoOf env (initialRequest b)) (j + 1) w.calls (initialRequest b) ∧
      (statsOps ev).foldl track (some w.benchmarkStats_) =
        some { w.benchmarkStats_ with
                 sendCount := w.benchmarkStats_.sendCount + (j + 1) } ∧
      (statsOps ev).count .startTransport = j + 1 ∧
      (statsOps ev).count .stopTransport = j + 1 := by
  obtain ⟨st, N, size, vb, asy⟩ := b
  obtain ⟨⟨cnt, co, tp, sp⟩, pr, pb, c, fl, tr⟩ := w
  simp only at hrec hmode hgo hstop ho hc hp
  subst hmode ho hc hp
  cases st with
  | other raw => exact absurd hrec (by simp [Recognised])
  | SEND_TYPE_EMPTY =>
    obtain ⟨ev, h1, h2, h3, h4, h5, h6⟩ := dispatch_chain
      ⟨.SEND_TYPE_EMPTY, N, size, vb, true⟩ env j deliveries
      ⟨⟨cnt, false, true, sp⟩, none, pb, c + 1, some (c, .getEmptyResponse),
        tr ++ [.stats .startTransport, .callAsync .getEmptyResponse]⟩
      c .getEmptyResponse rfl rfl rfl rfl rfl hgo hstop hfuel
    refine ⟨[.stats .startTransport, .callAsync .getEmptyResponse] ++ ev, ?_, ?_, ?_, ?_, ?_, ?_⟩
    · simp [dispatchSendType, doEmptyAsyncSendBenchmark, awaitFuture] at h1 ⊢
      simp [h1]
      try omega
    · simpa using h2
    · simp [initialRequest, echoChain, h3]
    · simpa [track, Allowed, BenchmarkStats.apply] using h4
    · simp [h5]
    · simp [h6]
  | SEND_TYPE_COPY =>
    cases vb with
    | false =>
      obtain ⟨ev, h1, h2, h3, h4, h5, h6⟩ := dispatch_chain
        ⟨.SEND_TYPE_COPY, N, size, false, true⟩ env j deliveries
        ⟨⟨cnt, false, true, sp⟩, none, pb, c + 1, some (c, (.getTestDataCopy fixedTestData)),
          tr ++ [.stats .startCreation, .stats .stopCreation, .stats .startTransport,
            .callAsync (.getTestDataCopy fixedTestData)]⟩
        c (.getTestDataCopy fixedTestData) rfl rfl rfl rfl rfl hgo hstop hfuel
      refine ⟨[.stats .startCreation, .stats .stopCreation, .stats .startTransport,
        .callAsync (.getTestDataCopy fixedTestData)] ++ ev, ?_, ?_, ?_, ?_, ?_, ?_⟩
      · simp [dispatchSendType, doCopyAsyncSendBenchmark, awaitFuture, createTestData] at h1 ⊢
        simp [h1]
        try omega
      · simpa using h2
      · simp [initialRequest, echoChain, h3]
      · simpa [track, Allowed, BenchmarkStats.apply] using h4
      · simp [h5]
      · simp [h6]
    | true =>
      obtain ⟨ev, h1, h2, h3, h4, h5, h6⟩ := dispatch_chain
        ⟨.SEND_TYPE_COPY, N, size, true, true⟩ env j deliveries
        ⟨⟨cnt, false, true, sp⟩, none, pb, c + 1, some (c, (.getTestDataCopy fixedTestData)),
          tr ++ [.cout .creatingTestData, .stats .startCreation, .stats .stopCreation,
            .stats .startTransport, .callAsync (.getTestDataCopy fixedTestData)]⟩
        c (.getTestDataCopy fixedTestData) rfl rfl rfl rfl rfl hgo hstop hfuel
      refine ⟨[.cout .creatingTestData, .stats .startCreation, .stats .stopCreation,
        .stats .startTransport, .callAsync (.getTestDataCopy fixedTestData)] ++ ev,
        ?_, ?_, ?_, ?_, ?_, ?_⟩
      · simp [dispatchSendType, doCopyAsyncSendBenchmark, awaitFuture, createTestData] at h1 ⊢
        simp [h1]
        try omega
      · simpa using h2
      · simp [initialRequest, echoChain, h3]
      · simpa [track, Allowed, BenchmarkStats.apply] using h4
      · simp [h5]
      · simp [h6]
  | SEND_TYPE_COPIES =>
    cases vb with
    | false =>
      obtain ⟨ev, h1, h2, h3, h4, h5, h6⟩ := dispatch_chain
        ⟨.SEND_TYPE_COPIES, N, size, false, true⟩ env j deliveries
        ⟨⟨cnt, false, true, sp⟩, none, pb, c + 1, some (c, (.getTestDataArrayCopy (List.replicate
            size fixedTestData))),
          tr ++ [.stats .startCreation, .stats .stopCreation, .stats .startTransport,
            .callAsync (.getTestDataArrayCopy (List.replicate size fixedTestData))]⟩
        c (.getTestDataArrayCopy (List.replicate size fixedTestData)) rfl rfl rfl rfl rfl hgo hstop
            hfuel
      refine ⟨[.stats .startCreation, .stats .stopCreation, .stats .startTransport,
        .callAsync (.getTestDataArrayCopy (List.replicate size fixedTestData))] ++ ev, ?_, ?_, ?_,
            ?_, ?_, ?_⟩
      · simp [dispatchSendType, doCopiesAsyncSendBenchmark, awaitFuture, createTestDataArray,
            fillTestDataArray_eq] at h1 ⊢
        simp [h1]
        try omega
      · simpa using h2
      · simp [initialRequest, echoChain, h3]
      · simpa [track, Allowed, BenchmarkStats.apply] using h4
      · simp [h5]
      · simp [h6]
    | true =>
      obtain ⟨ev, h1, h2, h3, h4, h5, h6⟩ := dispatch_chain
        ⟨.SEND_TYPE_COPIES, N, size, true, true⟩ env j deliveries
        ⟨⟨cnt, false, true, sp⟩, none, pb, c + 1, some (c, (.getTestDataArrayCopy (List.replicate
            size fixedTestData))),
          tr ++ [.cout .creatingTestDataArray, .stats .startCreation, .stats .stopCreation,
            .stats .startTransport, .callAsync (.getTestDataArrayCopy (List.replicate size
                fixedTestData))]⟩
        c (.getTestDataArrayCopy (List.replicate size fixedTestData)) rfl rfl rfl rfl rfl hgo hstop
            hfuel
      refine ⟨[.cout .creatingTestDataArray, .stats .startCreation, .stats .stopCreation,
        .stats .startTransport, .callAsync (.getTestDataArrayCopy (List.replicate size
            fixedTestData))] ++ ev,
        ?_, ?_, ?_, ?_, ?_, ?_⟩
      · simp [dispatchSendType, doCopiesAsyncSendBenchmark, awaitFuture, createTestDataArray,
            fillTestDataArray_eq] at h1 ⊢
        simp [h1]
        try omega
      · simpa using h2
      · simp [initialRequest, echoChain, h3]
      · simpa [track, Allowed, BenchmarkStats.apply] using h4
      · simp [h5]
      · simp [h6]

/-! ## The availability wait and the frame of `run()` -/

theorem waitForService_frame (env : Environment) :
    ∀ (left : Nat) (w : World), ∃ p ev,
      waitForService env left w = { w with probes := p, trace := w.trace ++ ev } ∧
      statsOps ev = [] ∧ remoteCalls ev = [] ∧ resolutions ev = [] ∧
      (sleeps ev).length ≤ left ∧ ∀ ms, ms ∈ sleeps ev → ms = 500 := by
  intro left
  induction left with
  | zero =>
    intro w
    exact ⟨w.probes + 1, [.isAvailable (env.isAvailable w.probes)], by simp [waitForService]⟩
  | succ left ih =>
    intro w
    cases hp : env.isAvailable w.probes with
    | true =>
      exact ⟨w.probes + 1, [.isAvailable true], by simp [waitForService, hp]⟩
    | false =>
      obtain ⟨p, ev, h1, h2, h3, h4, h5, h6⟩ := ih (sleep_for 500 (isAvailable env w).2)
      refine ⟨p, [.isAvailable false, .sleep 500] ++ ev, ?_, ?_, ?_, ?_, ?_, ?_⟩
      · rw [waitForService]
        simp [hp] at h1 ⊢
        simp [h1]
      · simp [h2]
      · simp [h3]
      · simp [h4]
      · simp; omega
      · intro ms hms
        simp at hms
        rcases hms with h | h
        · exact h
        · exact h6 ms h

theorem awaitService_frame (env : Environment) (w : World) :
    ∃ p ev, (awaitService env w).2 = { w with probes := p, trace := w.trace ++ ev } ∧
      statsOps ev = [] ∧ remoteCalls ev = [] ∧ resolutions ev = [] ∧
      (sleeps ev).length ≤ 10 ∧ ∀ ms, ms ∈ sleeps ev → ms = 500 := by
  obtain ⟨p, ev, h1, h2, h3, h4, h5, h6⟩ := waitForService_frame env 10 (cout .waitingForService w)
  refine ⟨p + 1, [.cout .waitingForService] ++ ev ++ [.isAvailable (env.isAvailable p)],
    ?_, ?_, ?_, ?_, ?_, ?_⟩
  · simp [awaitService] at h1 ⊢
    simp [h1]
  · simp [h2]
  · simp [h3]
  · simp [h4]
  · simpa using h5
  · intro ms hms
    simp at hms
    exact h6 ms hms

/-- The shape of `run()` once the endpoint was found available: the aggregator is
reset, one loop is dispatched from a state with no call issued, and the run
ends with `stop()` and the release of the proxy. -/
theorem run_of_available (b : Benchmark) (env : Environment) (deliveries : Nat)
    (stats0 : BenchmarkStats)
    (hav : (awaitService env (World.initial stats0)).1 = true) :
    ∃ p pre, statsOps pre = [] ∧ remoteCalls pre = [] ∧ resolutions pre = [] ∧
      ∀ result w1,
        dispatchSendType b env deliveries
            ⟨⟨0, false, false, false⟩, none, p, 0, none, pre ++ [.stats .reset]⟩ =
          (some result, w1) →
        run b env deliveries stats0 =
          (some (decide (result = CallStatus.SUCCESS)),
            { w1 with benchmarkStats_ := w1.benchmarkStats_.stop,
                      trace := w1.trace ++ (if b.verbose_ then [.cout .benchmarkEnd] else [])
                        ++ [.stats .stop, .proxyReset] }) := by
  obtain ⟨p, ev, h1, h2, h3, h4, _, _⟩ := awaitService_frame env (World.initial stats0)
  refine ⟨p, ev ++ (if b.verbose_ then [.cout .benchmarkBegin] else []), ?_, ?_, ?_, ?_⟩
  · cases b.verbose_ <;> simp [h2]
  · cases b.verbose_ <;> simp [h3]
  · cases b.verbose_ <;> simp [h4]
  · intro result w1 hd
    have hsplit : awaitService env (World.initial stats0) =
        (true, { World.initial stats0 with probes := p,
                                           trace := (World.initial stats0).trace ++ ev }) := by
      rw [← hav, ← h1]
    simp only [run, hsplit]
    cases hv : b.verbose_ <;> simp [hv, World.initial] at hd ⊢ <;> simp [hd]

/-! ## Whole runs -/

/-- A blocking run whose `sendCount_` calls all succeed. -/
theorem run_blocking_success (b : Benchmark) (env : Environment) (deliveries : Nat)
    (stats0 : BenchmarkStats)
    (hrec : Recognised b.sendType_) (hmode : b.async_ = false)
    (hav : (awaitService env (World.initial stats0)).1 = true)
    (hs : ∀ i, i < b.sendCount_ → env.callStatus i = .SUCCESS) :
    (run b env deliveries stats0).1 =
        some (decide ((if b.sendCount_ = 0 then env.indeterminate else .SUCCESS) =
          CallStatus.SUCCESS)) ∧
      (run b env deliveries stats0).2.benchmarkStats_ = ⟨b.sendCount_, false, false, true⟩ ∧
      remoteCalls (run b env deliveries stats0).2.trace =
        echoChain (echoOf env (initialRequest b)) b.sendCount_ 0 (initialRequest b) ∧
      ∃ ops, statsOps (run b env deliveries stats0).2.trace = .reset :: ops ++ [.stop] ∧
        ops.foldl track (some ⟨0, false, false, false⟩) =
          some ⟨b.sendCount_, false, false, false⟩ ∧
        ops.count .startTransport = b.sendCount_ ∧
        ops.count .stopTransport = b.sendCount_ := by
  obtain ⟨p, pre, hp1, hp2, hp3, hrun⟩ := run_of_available b env deliveries stats0 hav
  obtain ⟨ev, hd, h2, h3, h4, h5⟩ := dispatchSendType_blocking_success b env deliveries
    ⟨⟨0, false, false, false⟩, none, p, 0, none, pre ++ [.stats .reset]⟩ hrec hmode
    (by simpa using hs) rfl rfl
  rw [hrun _ _ hd]
  refine ⟨rfl, by simp, ?_, statsOps ev, ?_, ?_, h4, h5⟩
  · simpa [hp2] using h2
  · simp [hp1]
  · simpa using h3

/-- A blocking run whose call number `j` (from 0) is the first to fail. -/
theorem run_blocking_failure (b : Benchmark) (env : Environment) (deliveries : Nat)
    (stats0 : BenchmarkStats) (j : Nat)
    (hrec : Recognised b.sendType_) (hmode : b.async_ = false)
    (hav : (awaitService env (World.initial stats0)).1 = true)
    (hj : j < b.sendCount_)
    (hs : ∀ i, i < j → env.callStatus i = .SUCCESS)
    (hf : env.callStatus j ≠ .SUCCESS) :
    (run b env deliveries stats0).1 = some false ∧
      (run b env deliveries stats0).2.benchmarkStats_ = ⟨j, false, true, true⟩ ∧
      remoteCalls (run b env deliveries stats0).2.trace =
        echoChain (echoOf env (initialRequest b)) (j + 1) 0 (initialRequest b) ∧
      ∃ ops, statsOps (run b env deliveries stats0).2.trace = .reset :: ops ++ [.stop] ∧
        ops.foldl track (some ⟨0, false, false, false⟩) = some ⟨j, false, true, false⟩ ∧
        ops.count .startTransport = j + 1 ∧
        ops.count .stopTransport = j ∧
        ∃ ops1, ops = ops1 ++ [.startTransport] := by
  obtain ⟨p, pre, hp1, hp2, hp3, hrun⟩ := run_of_available b env deliveries stats0 hav
  obtain ⟨ev, hd, h2, h3, h4, h5, h6⟩ := dispatchSendType_blocking_failure b env deliveries
    ⟨⟨0, false, false, false⟩, none, p, 0, none, pre ++ [.stats .reset]⟩ j hrec hmode hj
    (by simpa using hs) (by simpa using hf) rfl rfl
  rw [hrun _ _ hd]
  refine ⟨by simpa using hf, by simp, ?_, statsOps ev, ?_, ?_, h4, h5, h6⟩
  · simpa [hp2] using h2
  · simp [hp1]
  · simpa using h3

/-- A chained run whose reply number `j` (from 0) is the first one on which the
continuation does not issue a further call. -/
theorem run_chained (b : Benchmark) (env : Environment) (deliveries : Nat)
    (stats0 : BenchmarkStats) (j : Nat)
    (hrec : Recognised b.sendType_) (hmode : b.async_ = true)
    (hav : (awaitService env (World.initial stats0)).1 = true)
    (hgo : ∀ i, i < j → env.callStatus i = .SUCCESS ∧ i + 1 < b.sendCount_)
    (hstop : env.callStatus j ≠ .SUCCESS ∨ b.sendCount_ ≤ j + 1)
    (hfuel : j < deliveries) :
    (run b env deliveries stats0).1 = some (decide (env.callStatus j = CallStatus.SUCCESS)) ∧
      (run b env deliveries stats0).2.benchmarkStats_ = ⟨j + 1, false, false, true⟩ ∧
      remoteCalls (run b env deliveries stats0).2.trace =
        echoChain (echoOf env (initialRequest b)) (j + 1) 0 (initialRequest b) ∧
      (∃ ops, statsOps (run b env deliveries stats0).2.trace = .reset :: ops ++ [.stop] ∧
        ops.foldl track (some ⟨0, false, false, false⟩) = some ⟨j + 1, false, false, false⟩ ∧
        ops.count .startTransport = j + 1 ∧
        ops.count .stopTransport = j + 1) ∧
      ∃ before after, (run b env deliveries stats0).2.trace =
          before ++ [.set_value (env.callStatus j)] ++ after ∧
        resolutions before = [] ∧ resolutions after = [] ∧ remoteCalls after = [] ∧
        (remoteCalls before).length = j + 1 := by
  obtain ⟨p, pre, hp1, hp2, hp3, hrun⟩ := run_of_available b env deliveries stats0 hav
  obtain ⟨ev, hd, h1, h2, h3, h4, h5⟩ := dispatchSendType_chained b env deliveries
    ⟨⟨0, false, false, false⟩, none, p, 0, none, pre ++ [.stats .reset]⟩ j hrec hmode
    (by simpa using hgo) (by simpa using hstop) hfuel rfl rfl rfl
  simp only [Nat.zero_add] at hd
  rw [hrun _ _ hd]
  refine ⟨rfl, by simp, ?_, ⟨statsOps ev, ?_, ?_, h4, h5⟩,
    pre ++ [.stats .reset] ++ ev,
    (if b.verbose_ then [.cout .benchmarkEnd] else []) ++ [.stats .stop, .proxyReset],
    ?_, ?_, ?_, ?_, ?_⟩
  · simpa [hp2] using h2
  · simp [hp1]
  · simpa using h3
  · simp
  · simp [hp3, h1]
  · simp
  · simp
  · simp [hp2, h2, echoChain_length]

theorem exists_stop_index (status : Nat → CallStatus) (n : Nat) (hn : 1 ≤ n) :
    ∃ j, j < n ∧ (∀ i, i < j → status i = .SUCCESS ∧ i + 1 < n) ∧
      (status j ≠ .SUCCESS ∨ n ≤ j + 1) := by
  rcases first_failure status (n - 1) with h | ⟨j, hj, hf, hs⟩
  · exact ⟨n - 1, by omega, fun i hi => ⟨h i hi, by omega⟩, Or.inr (by omega)⟩
  · exact ⟨j, by omega, fun i hi => ⟨hs i hi, by omega⟩, Or.inl hf⟩

/-! ## The claims -/

/-- C1: for each of the three call shapes, in blocking and in chained mode, for
every target count `N ≥ 1` and every array size, if the endpoint is found
available and the first `N` remote calls return `SUCCESS`, then `run()`
returns true, issues exactly `N` remote calls, and the completed-call counter
read by `getSendCount` is `N` at the end of the run.  In chained mode the RPC
client is taken to deliver the replies of at least `N` calls. -/
theorem run_completes_target_count (b : Benchmark) (env : Environment) (deliveries : Nat)
    (stats0 : BenchmarkStats)
    (hrec : Recognised b.sendType_) (hN : 1 ≤ b.sendCount_)
    (hav : (awaitService env (World.initial stats0)).1 = true)
    (hs : ∀ i, i < b.sendCount_ → env.callStatus i = .SUCCESS)
    (hfuel : b.async_ = true → b.sendCount_ ≤ deliveries) :
    (run b env deliveries stats0).1 = some true ∧
      (remoteCalls (run b env deliveries stats0).2.trace).length = b.sendCount_ ∧
      getSendCount (run b env deliveries stats0).2 = b.sendCount_ := by
  cases hmode : b.async_ with
  | false =>
    obtain ⟨h1, h2, h3, _⟩ := run_blocking_success b env deliveries stats0 hrec hmode hav hs
    have hne : b.sendCount_ ≠ 0 := by omega
    refine ⟨?_, ?_, ?_⟩
    · simpa [hne] using h1
    · rw [h3, echoChain_length]
    · simp [h2]
  | true =>
    have hlast := hs (b.sendCount_ - 1) (by omega)
    obtain ⟨h1, h2, h3, _⟩ := run_chained b env deliveries stats0 (b.sendCount_ - 1) hrec hmode
      hav (fun i hi => ⟨hs i (by omega), by omega⟩) (Or.inr (by omega))
      (by have := hfuel hmode; omega)
    refine ⟨?_, ?_, ?_⟩
    · simpa [hlast] using h1
    · rw [h3, echoChain_length]; omega
    · simp [h2]; omega

theorem run_completes_target_count_witness :
    Recognised SendType.SEND_TYPE_COPIES ∧ 1 ≤ 3 ∧
      (awaitService echoService (World.initial freshStats)).1 = true ∧
      (∀ i, i < 3 → echoService.callStatus i = .SUCCESS) ∧
      (run ⟨.SEND_TYPE_COPIES, 3, 0, false, true⟩ echoService 3 freshStats).1 = some true ∧
      (remoteCalls
        (run ⟨.SEND_TYPE_COPIES, 3, 0, false, true⟩ echoService 3 freshStats).2.trace).length
          = 3 ∧
      getSendCount (run ⟨.SEND_TYPE_COPIES, 3, 0, false, true⟩ echoService 3 freshStats).2 = 3 :=
  ⟨trivial, by decide, rfl, fun _ _ => rfl,
    run_completes_target_count ⟨.SEND_TYPE_COPIES, 3, 0, false, true⟩ echoService 3 freshStats
      trivial (by decide) rfl (fun _ _ => rfl) (fun _ => Nat.le_refl 3)⟩

/-- C2 (evaluation at the failing input): target count 5, `SEND_TYPE_COPY`,
chained mode, call number 3 returns `FAILURE`.  The chain stops after three
calls and `run()` returns false, but the completed-call counter is 3: the
continuation counts the failed round trip before it looks at the outcome.  The
blocking loop on the same input leaves the counter at 2. -/
theorem chained_failure_is_counted :
    (run ⟨.SEND_TYPE_COPY, 5, 0, false, true⟩ (failingService 2) 5 freshStats).1 = some false ∧
      (remoteCalls
        (run ⟨.SEND_TYPE_COPY, 5, 0, false, true⟩ (failingService 2) 5 freshStats).2.trace).length
          = 3 ∧
      getSendCount (run ⟨.SEND_TYPE_COPY, 5, 0, false, true⟩ (failingService 2) 5 freshStats).2
          = 3 ∧
      getSendCount (run ⟨.SEND_TYPE_COPY, 5, 0, false, false⟩ (failingService 2) 5 freshStats).2
          = 2 := by
  decide

theorem resolvedAfter_of_stop (b : Benchmark) (env : Environment) (deliveries : Nat)
    (stats0 : BenchmarkStats) (j : Nat)
    (hrec : Recognised b.sendType_) (hmode : b.async_ = true)
    (hav : (awaitService env (World.initial stats0)).1 = true)
    (hgo : ∀ i, i < j → env.callStatus i = .SUCCESS ∧ i + 1 < b.sendCount_)
    (hstop : env.callStatus j ≠ .SUCCESS ∨ b.sendCount_ ≤ j + 1)
    (hfuel : j < deliveries) :
    ResolvedAfter b env deliveries stats0 (j + 1) := by
  obtain ⟨h1, _, h3, _, before, after, h5, h6, h7, h8, h9⟩ :=
    run_chained b env deliveries stats0 j hrec hmode hav hgo hstop hfuel
  refine ⟨?_, ?_, ⟨before, after, ?_, h9, h6, h8, h7⟩, ?_⟩
  · rw [h3, echoChain_length]
  · rw [h5]; simp [h6, h7]
  · simpa using h5
  · simpa using h1

/-- C3: in chained mode, for each of the three call shapes, every target count
`N ≥ 1` and every sequence of outcomes, with each continuation invoked once
per asynchronous call: if call `k` is the first that does not return
`SUCCESS` the chain issues exactly `min k N` calls, and if every call returns
`SUCCESS` it issues exactly `N`; in both cases `asyncPromise_.set_value` is
called exactly once, with the outcome of the last call issued, no call is
issued after it, and `run()` returns true iff that outcome is `SUCCESS`. -/
theorem chained_resolves_once (b : Benchmark) (env : Environment) (deliveries : Nat)
    (stats0 : BenchmarkStats)
    (hrec : Recognised b.sendType_) (hmode : b.async_ = true) (hN : 1 ≤ b.sendCount_)
    (hav : (awaitService env (World.initial stats0)).1 = true)
    (hfuel : b.sendCount_ ≤ deliveries) :
    (∀ k, 1 ≤ k → (∀ i, i + 1 < k → env.callStatus i = .SUCCESS) →
        env.callStatus (k - 1) ≠ .SUCCESS →
        ResolvedAfter b env deliveries stats0 (min k b.sendCount_)) ∧
      ((∀ i, env.callStatus i = .SUCCESS) →
        ResolvedAfter b env deliveries stats0 b.sendCount_) := by
  constructor
  · intro k hk hs hf
    have hm : min k b.sendCount_ = (min k b.sendCount_ - 1) + 1 := by omega
    rw [hm]
    apply resolvedAfter_of_stop b env deliveries stats0 _ hrec hmode hav
    · intro i hi
      exact ⟨hs i (by omega), by omega⟩
    · by_cases hkn : k ≤ b.sendCount_
      · left
        rw [Nat.min_eq_left hkn]
        exact hf
      · right
        omega
    · omega
  · intro hs
    have hm : b.sendCount_ = (b.sendCount_ - 1) + 1 := by omega
    rw [hm]
    apply resolvedAfter_of_stop b env deliveries stats0 _ hrec hmode hav
    · intro i hi
      exact ⟨hs i, by omega⟩
    · right
      omega
    · omega

theorem chained_resolves_once_witness :
    Recognised SendType.SEND_TYPE_COPY ∧ true = true ∧ 1 ≤ 5 ∧
      (awaitService (failingService 2) (World.initial freshStats)).1 = true ∧ 5 ≤ 5 ∧
      1 ≤ 3 ∧ (∀ i, i + 1 < 3 → (failingService 2).callStatus i = .SUCCESS) ∧
      (failingService 2).callStatus (3 - 1) ≠ .SUCCESS ∧
      ResolvedAfter ⟨.SEND_TYPE_COPY, 5, 0, false, true⟩ (failingService 2) 5 freshStats
        (min 3 5) :=
  have hs : ∀ i, i + 1 < 3 → (failingService 2).callStatus i = .SUCCESS := by
    intro i hi
    have h2 : i ≠ 2 := by omega
    simp [failingService, h2]
  ⟨trivial, rfl, by decide, rfl, Nat.le_refl 5, by decide, hs, by decide,
    (chained_resolves_once ⟨.SEND_TYPE_COPY, 5, 0, false, true⟩ (failingService 2) 5 freshStats
      trivial rfl (by decide) rfl (Nat.le_refl 5)).1 3 (by decide) hs (by decide)⟩

/-- C4: in blocking mode, for each of the three call shapes, if calls `1 .. k-1`
return `SUCCESS` and call `k ≤ N` does not, then exactly `k` remote calls are
issued (call `k+1` is never attempted), the completed-call counter is `k-1`,
the loop returns the outcome of call `k`, and `run()` returns false. -/
theorem blocking_failure_stops_loop (b : Benchmark) (env : Environment) (deliveries : Nat)
    (stats0 : BenchmarkStats) (k : Nat)
    (hrec : Recognised b.sendType_) (hmode : b.async_ = false)
    (hav : (awaitService env (World.initial stats0)).1 = true)
    (hk : 1 ≤ k) (hkN : k ≤ b.sendCount_)
    (hs : ∀ i, i + 1 < k → env.callStatus i = .SUCCESS)
    (hf : env.callStatus (k - 1) ≠ .SUCCESS) :
    (remoteCalls (run b env deliveries stats0).2.trace).length = k ∧
      getSendCount (run b env deliveries stats0).2 = k - 1 ∧
      (∀ w : World, w.calls = 0 → w.benchmarkStats_.transportOpen = false →
        w.benchmarkStats_.creationOpen = false →
        (dispatchSendType b env deliveries w).1 = some (env.callStatus (k - 1))) ∧
      (run b env deliveries stats0).1 = some false := by
  obtain ⟨h1, h2, h3, _⟩ := run_blocking_failure b env deliveries stats0 (k - 1) hrec hmode
    hav (by omega) (fun i hi => hs i (by omega)) hf
  refine ⟨?_, ?_, ?_, h1⟩
  · rw [h3, echoChain_length]; omega
  · simp [h2]
  · intro w hw ho hc
    obtain ⟨ev, hd, _⟩ := dispatchSendType_blocking_failure b env deliveries w (k - 1) hrec
      hmode (by omega) (fun i hi => by rw [hw]; simpa using hs i (by omega))
      (by rw [hw]; simpa using hf) ho hc
    rw [hd, hw]
    simp

theorem blocking_failure_stops_loop_witness :
    Recognised SendType.SEND_TYPE_EMPTY ∧ false = false ∧
      (awaitService (failingService 2) (World.initial freshStats)).1 = true ∧
      1 ≤ 3 ∧ 3 ≤ 5 ∧
      (∀ i, i + 1 < 3 → (failingService 2).callStatus i = .SUCCESS) ∧
      (failingService 2).callStatus (3 - 1) ≠ .SUCCESS ∧
      ((remoteCalls (run ⟨.SEND_TYPE_EMPTY, 5, 0, false, false⟩ (failingService 2) 0
          freshStats).2.trace).length = 3 ∧
        getSendCount (run ⟨.SEND_TYPE_EMPTY, 5, 0, false, false⟩ (failingService 2) 0
          freshStats).2 = 3 - 1 ∧
        (∀ w : World, w.calls = 0 → w.benchmarkStats_.transportOpen = false →
          w.benchmarkStats_.creationOpen = false →
          (dispatchSendType ⟨.SEND_TYPE_EMPTY, 5, 0, false, false⟩ (failingService 2) 0 w).1 =
            some ((failingService 2).callStatus (3 - 1))) ∧
        (run ⟨.SEND_TYPE_EMPTY, 5, 0, false, false⟩ (failingService 2) 0 freshStats).1 =
          some false) :=
  have hs : ∀ i, i + 1 < 3 → (failingService 2).callStatus i = .SUCCESS := by
    intro i hi
    have h2 : i ≠ 2 := by omega
    simp [failingService, h2]
  ⟨trivial, rfl, rfl, by decide, by decide, hs, by decide,
    blocking_failure_stops_loop ⟨.SEND_TYPE_EMPTY, 5, 0, false, false⟩ (failingService 2) 0
      freshStats 3 trivial rfl rfl (by decide) (by decide) hs (by decide)⟩

/-- C5: for every configuration, if every availability probe answers false, then
`run()` returns false after exactly ten delays of 500 ms (twelve probes),
issues no remote call and performs no operation on the aggregator, which is
left as it was; so a completed-call count of 0 remains 0. -/
theorem run_unavailable (b : Benchmark) (env : Environment) (deliveries : Nat)
    (stats0 : BenchmarkStats) (hnever : ∀ i, env.isAvailable i = false) :
    (run b env deliveries stats0).1 = some false ∧
      sleeps (run b env deliveries stats0).2.trace = List.replicate 10 500 ∧
      (sleeps (run b env deliveries stats0).2.trace).length ≤ 10 ∧
      (run b env deliveries stats0).2.probes = 12 ∧
      remoteCalls (run b env deliveries stats0).2.trace = [] ∧
      statsOps (run b env deliveries stats0).2.trace = [] ∧
      (run b env deliveries stats0).2.benchmarkStats_ = stats0 ∧
      (getSendCount (World.initial stats0) = 0 →
        getSendCount (run b env deliveries stats0).2 = 0) := by
  have hrun : run b env deliveries stats0 =
      (some false,
        { World.initial stats0 with
            probes := 12,
            trace := [.cout .waitingForService,
              .isAvailable false, .sleep 500, .isAvailable false, .sleep 500,
              .isAvailable false, .sleep 500, .isAvailable false, .sleep 500,
              .isAvailable false, .sleep 500, .isAvailable false, .sleep 500,
              .isAvailable false, .sleep 500, .isAvailable false, .sleep 500,
              .isAvailable false, .sleep 500, .isAvailable false, .sleep 500,
              .isAvailable false, .isAvailable false, .cerr .timedOut] }) := by
    simp [run, awaitService, waitForService, hnever, World.initial]
  rw [hrun]
  simp [World.initial, List.replicate]

theorem run_unavailable_witness :
    (∀ i, absentService.isAvailable i = false) ∧
      (run ⟨.SEND_TYPE_COPIES, 4, 2, true, true⟩ absentService 4 freshStats).1 = some false ∧
      sleeps (run ⟨.SEND_TYPE_COPIES, 4, 2, true, true⟩ absentService 4 freshStats).2.trace =
        List.replicate 10 500 ∧
      (sleeps
        (run ⟨.SEND_TYPE_COPIES, 4, 2, true, true⟩ absentService 4 freshStats).2.trace).length
          ≤ 10 ∧
      (run ⟨.SEND_TYPE_COPIES, 4, 2, true, true⟩ absentService 4 freshStats).2.probes = 12 ∧
      remoteCalls (run ⟨.SEND_TYPE_COPIES, 4, 2, true, true⟩ absentService 4 freshStats).2.trace
        = [] ∧
      statsOps (run ⟨.SEND_TYPE_COPIES, 4, 2, true, true⟩ absentService 4 freshStats).2.trace
        = [] ∧
      (run ⟨.SEND_TYPE_COPIES, 4, 2, true, true⟩ absentService 4 freshStats).2.benchmarkStats_
        = freshStats ∧
      (getSendCount (World.initial freshStats) = 0 →
        getSendCount (run ⟨.SEND_TYPE_COPIES, 4, 2, true, true⟩ absentService 4 freshStats).2
          = 0) :=
  ⟨fun _ => rfl,
    run_unavailable ⟨.SEND_TYPE_COPIES, 4, 2, true, true⟩ absentService 4 freshStats
      (fun _ => rfl)⟩

/-- Every run that gets past the availability check ends with a disciplined
sequence of aggregator operations between `reset` and `stop`. -/
theorem run_tracked (b : Benchmark) (env : Environment) (deliveries : Nat)
    (stats0 : BenchmarkStats)
    (hrec : Recognised b.sendType_) (hN : 1 ≤ b.sendCount_)
    (hav : (awaitService env (World.initial stats0)).1 = true)
    (hfuel : b.async_ = true → b.sendCount_ ≤ deliveries) :
    ∃ ops s1, statsOps (run b env deliveries stats0).2.trace = .reset :: ops ++ [.stop] ∧
      ops.foldl track (some ⟨0, false, false, false⟩) = some s1 := by
  cases hmode : b.async_ with
  | false =>
    rcases first_failure env.callStatus b.sendCount_ with hs | ⟨j, hj, hf, hs⟩
    · obtain ⟨_, _, _, ops, h1, h2, _⟩ :=
        run_blocking_success b env deliveries stats0 hrec hmode hav hs
      exact ⟨ops, _, h1, h2⟩
    · obtain ⟨_, _, _, ops, h1, h2, _⟩ :=
        run_blocking_failure b env deliveries stats0 j hrec hmode hav hj hs hf
      exact ⟨ops, _, h1, h2⟩
  | true =>
    obtain ⟨j, hj, hgo, hstop⟩ := exists_stop_index env.callStatus b.sendCount_ hN
    obtain ⟨_, _, _, ⟨ops, h1, h2, _⟩, _⟩ :=
      run_chained b env deliveries stats0 j hrec hmode hav hgo hstop
        (by have := hfuel hmode; omega)
    exact ⟨ops, _, h1, h2⟩

/-- C7: for each of the three call shapes, both modes, every target count
`N ≥ 1` and every sequence of outcomes, the aggregator operations that `run()`
issues between `reset` and `stop` respect the pairing discipline at every
initial segment: a phase is started only when neither phase is open, `stopTransport`
is issued only when transport is the open phase, `stopCreation` only when
construction is, and `addSendReplyDelta` only when transport is not open;
hence the two phases are never open together.  The run is one that found the
endpoint available and, in chained mode, got the replies of its calls. -/
theorem pairing_discipline (b : Benchmark) (env : Environment) (deliveries : Nat)
    (stats0 : BenchmarkStats)
    (hrec : Recognised b.sendType_) (hN : 1 ≤ b.sendCount_)
    (hav : (awaitService env (World.initial stats0)).1 = true)
    (hfuel : b.async_ = true → b.sendCount_ ≤ deliveries) :
    ∃ ops, statsOps (run b env deliveries stats0).2.trace = .reset :: ops ++ [.stop] ∧
      (∀ pre op post, ops = pre ++ op :: post →
        Allowed (pre.foldl BenchmarkStats.apply ⟨0, false, false, false⟩) op = true) ∧
      (∀ pre post, ops = pre ++ post →
        ((pre.foldl BenchmarkStats.apply ⟨0, false, false, false⟩).creationOpen &&
          (pre.foldl BenchmarkStats.apply ⟨0, false, false, false⟩).transportOpen) = false) := by
  obtain ⟨ops, s1, h1, h2⟩ := run_tracked b env deliveries stats0 hrec hN hav hfuel
  exact ⟨ops, h1, track_allowed ops _ s1 h2, track_exclusive ops _ s1 h2 rfl⟩

theorem pairing_discipline_witness :
    Recognised SendType.SEND_TYPE_COPIES ∧ 1 ≤ 4 ∧
      (awaitService (failingService 2) (World.initial freshStats)).1 = true ∧
      (true = true → 4 ≤ 4) ∧
      ∃ ops, statsOps (run ⟨.SEND_TYPE_COPIES, 4, 2, false, true⟩ (failingService 2) 4
          freshStats).2.trace = .reset :: ops ++ [.stop] ∧
        (∀ pre op post, ops = pre ++ op :: post →
          Allowed (pre.foldl BenchmarkStats.apply ⟨0, false, false, false⟩) op = true) ∧
        (∀ pre post, ops = pre ++ post →
          ((pre.foldl BenchmarkStats.apply ⟨0, false, false, false⟩).creationOpen &&
            (pre.foldl BenchmarkStats.apply ⟨0, false, false, false⟩).transportOpen) = false) :=
  ⟨trivial, by decide, rfl, fun _ => Nat.le_refl 4,
    pairing_discipline ⟨.SEND_TYPE_COPIES, 4, 2, false, true⟩ (failingService 2) 4 freshStats
      trivial (by decide) rfl (fun _ => Nat.le_refl 4)⟩

/-- The requests of a run form an echo chain that starts with the payload built
before the loop. -/
theorem run_requests (b : Benchmark) (env : Environment) (deliveries : Nat)
    (stats0 : BenchmarkStats)
    (hrec : Recognised b.sendType_) (hN : 1 ≤ b.sendCount_)
    (hav : (awaitService env (World.initial stats0)).1 = true)
    (hfuel : b.async_ = true → b.sendCount_ ≤ deliveries) :
    ∃ m, 1 ≤ m ∧ remoteCalls (run b env deliveries stats0).2.trace =
      echoChain (echoOf env (initialRequest b)) m 0 (initialRequest b) := by
  cases hmode : b.async_ with
  | false =>
    rcases first_failure env.callStatus b.sendCount_ with hs | ⟨j, hj, hf, hs⟩
    · obtain ⟨_, _, h3, _⟩ := run_blocking_success b env deliveries stats0 hrec hmode hav hs
      exact ⟨b.sendCount_, hN, h3⟩
    · obtain ⟨_, _, h3, _⟩ :=
        run_blocking_failure b env deliveries stats0 j hrec hmode hav hj hs hf
      exact ⟨j + 1, by omega, h3⟩
  | true =>
    obtain ⟨j, hj, hgo, hstop⟩ := exists_stop_index env.callStatus b.sendCount_ hN
    obtain ⟨_, _, h3, _⟩ := run_chained b env deliveries stats0 j hrec hmode hav hgo hstop
      (by have := hfuel hmode; omega)
    exact ⟨j + 1, by omega, h3⟩

/-- C8: for `SEND_TYPE_COPY` and `SEND_TYPE_COPIES`, in both modes, for every
target count `N ≥ 1`, array size `n` and sequence of replies: the payload of
the first call is the one built before the loop (the fixed record, resp.
exactly `n` copies of it, none when `n = 0`), and whenever call `i+1` is
issued its payload is the reply payload of call `i`.  The run is one that found
the endpoint available and, in chained mode, got the replies of its calls. -/
theorem payload_is_previous_reply (b : Benchmark) (env : Environment) (deliveries : Nat)
    (stats0 : BenchmarkStats) (hN : 1 ≤ b.sendCount_)
    (hav : (awaitService env (World.initial stats0)).1 = true)
    (hfuel : b.async_ = true → b.sendCount_ ≤ deliveries) :
    (b.sendType_ = .SEND_TYPE_COPY →
      (remoteCalls (run b env deliveries stats0).2.trace).head? =
          some (.getTestDataCopy fixedTestData) ∧
        ∀ i q, (remoteCalls (run b env deliveries stats0).2.trace)[i + 1]? = some q →
          q = .getTestDataCopy (env.testDataReply i)) ∧
    (b.sendType_ = .SEND_TYPE_COPIES →
      (createTestDataArray b (World.initial stats0)).1 =
          List.replicate b.arraySize_ fixedTestData ∧
        (remoteCalls (run b env deliveries stats0).2.trace).head? =
          some (.getTestDataArrayCopy (List.replicate b.arraySize_ fixedTestData)) ∧
        ∀ i q, (remoteCalls (run b env deliveries stats0).2.trace)[i + 1]? = some q →
          q = .getTestDataArrayCopy (env.testDataArrayReply i)) := by
  constructor
  · intro hshape
    obtain ⟨m, hm, h⟩ := run_requests b env deliveries stats0 (by simp [hshape, Recognised])
      hN hav hfuel
    rw [h]
    refine ⟨?_, ?_⟩
    · rw [echoChain_head _ _ _ _ hm]; simp [initialRequest, hshape]
    · intro i q hq
      have := echoChain_succ _ _ _ _ _ _ hq
      simpa [initialRequest, hshape, echoOf] using this
  · intro hshape
    obtain ⟨m, hm, h⟩ := run_requests b env deliveries stats0 (by simp [hshape, Recognised])
      hN hav hfuel
    rw [h]
    refine ⟨?_, ?_, ?_⟩
    · simp [createTestDataArray, fillTestDataArray_eq]
    · rw [echoChain_head _ _ _ _ hm]; simp [initialRequest, hshape]
    · intro i q hq
      have := echoChain_succ _ _ _ _ _ _ hq
      simpa [initialRequest, hshape, echoOf] using this

theorem payload_is_previous_reply_witness :
    1 ≤ 3 ∧ (awaitService countingService (World.initial freshStats)).1 = true ∧
      (false = true → 3 ≤ 0) ∧
      SendType.SEND_TYPE_COPIES = SendType.SEND_TYPE_COPIES ∧
      ((createTestDataArray ⟨.SEND_TYPE_COPIES, 3, 2, false, false⟩
            (World.initial freshStats)).1 = List.replicate 2 fixedTestData ∧
        (remoteCalls (run ⟨.SEND_TYPE_COPIES, 3, 2, false, false⟩ countingService 0
            freshStats).2.trace).head? =
          some (.getTestDataArrayCopy (List.replicate 2 fixedTestData)) ∧
        ∀ i q, (remoteCalls (run ⟨.SEND_TYPE_COPIES, 3, 2, false, false⟩ countingService 0
            freshStats).2.trace)[i + 1]? = some q →
          q = .getTestDataArrayCopy (countingService.testDataArrayReply i)) :=
  ⟨by decide, rfl, fun h => Bool.noConfusion h, rfl,
    (payload_is_previous_reply ⟨.SEND_TYPE_COPIES, 3, 2, false, false⟩ countingService 0
      freshStats (by decide) rfl (fun h => Bool.noConfusion h)).2 rfl⟩

/-- C9: with an available endpoint answering every call with `SUCCESS` and a
target count of 0, the chained loop of each shape still issues exactly one
remote call and ends with a completed-call counter of 1, whereas the blocking
loop issues no call and leaves the counter at 0; for every target count `N`
the chained loop issues `max 1 N` calls. -/
theorem zero_target_count (b : Benchmark) (env : Environment) (deliveries : Nat)
    (stats0 : BenchmarkStats)
    (hrec : Recognised b.sendType_)
    (hav : (awaitService env (World.initial stats0)).1 = true)
    (hs : ∀ i, env.callStatus i = .SUCCESS) :
    (b.sendCount_ = 0 → b.async_ = true → 1 ≤ deliveries →
      (remoteCalls (run b env deliveries stats0).2.trace).length = 1 ∧
        getSendCount (run b env deliveries stats0).2 = 1) ∧
    (b.sendCount_ = 0 → b.async_ = false →
      (remoteCalls (run b env deliveries stats0).2.trace).length = 0 ∧
        getSendCount (run b env deliveries stats0).2 = 0) ∧
    (b.async_ = true → max 1 b.sendCount_ ≤ deliveries →
      (remoteCalls (run b env deliveries stats0).2.trace).length = max 1 b.sendCount_) := by
  have hchain : b.async_ = true → max 1 b.sendCount_ ≤ deliveries →
      (remoteCalls (run b env deliveries stats0).2.trace).length = max 1 b.sendCount_ ∧
        getSendCount (run b env deliveries stats0).2 = max 1 b.sendCount_ := by
    intro hmode hfuel
    obtain ⟨_, h2, h3, _⟩ := run_chained b env deliveries stats0 (max 1 b.sendCount_ - 1)
      hrec hmode hav (fun i hi => ⟨hs i, by omega⟩) (Or.inr (by omega)) (by omega)
    refine ⟨?_, ?_⟩
    · rw [h3, echoChain_length]; omega
    · simp [h2]
  refine ⟨?_, ?_, fun hmode hfuel => (hchain hmode hfuel).1⟩
  · intro h0 hmode hfuel
    have := hchain hmode (by rw [h0]; simpa using hfuel)
    simpa [h0] using this
  · intro h0 hmode
    obtain ⟨_, h2, h3, _⟩ := run_blocking_success b env deliveries stats0 hrec hmode hav
      (fun i _ => hs i)
    refine ⟨?_, ?_⟩
    · rw [h3, echoChain_length, h0]
    · simp [h2, h0]

theorem zero_target_count_witness :
    Recognised SendType.SEND_TYPE_EMPTY ∧
      (awaitService echoService (World.initial freshStats)).1 = true ∧
      (∀ i, echoService.callStatus i = .SUCCESS) ∧
      (0 = 0 ∧ true = true ∧ 1 ≤ 1) ∧
      (remoteCalls (run ⟨.SEND_TYPE_EMPTY, 0, 0, false, true⟩ echoService 1
          freshStats).2.trace).length = 1 ∧
      getSendCount (run ⟨.SEND_TYPE_EMPTY, 0, 0, false, true⟩ echoService 1 freshStats).2 = 1 :=
  ⟨trivial, rfl, fun _ => rfl, ⟨rfl, rfl, Nat.le_refl 1⟩,
    (zero_target_count ⟨.SEND_TYPE_EMPTY, 0, 0, false, true⟩ echoService 1 freshStats
      trivial rfl (fun _ => rfl)).1 rfl rfl (Nat.le_refl 1)⟩

/-- C10: for each shape and target count `N ≥ 1`, when a blocking loop ends on a
call `k` that did not return `SUCCESS`, the transport phase started for that
call is never stopped: `startTransport` is the last operation before `stop()`
and the aggregator is stopped with transport open, one `startTransport`
being unmatched.  In chained mode (whatever the outcomes) and in every
blocking run whose calls all succeed, the aggregator is stopped with transport
closed and as many `stopTransport` as `startTransport` operations. -/
theorem transport_open_after_blocking_failure (b : Benchmark) (env : Environment)
    (deliveries : Nat) (stats0 : BenchmarkStats)
    (hrec : Recognised b.sendType_) (hN : 1 ≤ b.sendCount_)
    (hav : (awaitService env (World.initial stats0)).1 = true) :
    (b.async_ = false → ∀ k, 1 ≤ k → k ≤ b.sendCount_ →
      (∀ i, i + 1 < k → env.callStatus i = .SUCCESS) → env.callStatus (k - 1) ≠ .SUCCESS →
      (run b env deliveries stats0).2.benchmarkStats_.transportOpen = true ∧
        (∃ pre, statsOps (run b env deliveries stats0).2.trace =
          pre ++ [.startTransport, .stop]) ∧
        (statsOps (run b env deliveries stats0).2.trace).count .startTransport =
          (statsOps (run b env deliveries stats0).2.trace).count .stopTransport + 1) ∧
    (b.async_ = true → b.sendCount_ ≤ deliveries →
      (run b env deliveries stats0).2.benchmarkStats_.transportOpen = false ∧
        (statsOps (run b env deliveries stats0).2.trace).count .startTransport =
          (statsOps (run b env deliveries stats0).2.trace).count .stopTransport) ∧
    (b.async_ = false → (∀ i, i < b.sendCount_ → env.callStatus i = .SUCCESS) →
      (run b env deliveries stats0).2.benchmarkStats_.transportOpen = false ∧
        (statsOps (run b env deliveries stats0).2.trace).count .startTransport =
          (statsOps (run b env deliveries stats0).2.trace).count .stopTransport) := by
  refine ⟨?_, ?_, ?_⟩
  · intro hmode k hk hkN hs hf
    obtain ⟨_, h2, _, ops, h4, _, h6, h7, ops1, h8⟩ :=
      run_blocking_failure b env deliveries stats0 (k - 1) hrec hmode hav (by omega)
        (fun i hi => hs i (by omega)) hf
    refine ⟨by simp [h2], ⟨.reset :: ops1, by simp [h4, h8]⟩, ?_⟩
    rw [h4]
    simp [h6, h7]
  · intro hmode hfuel
    obtain ⟨j, hj, hgo, hstop⟩ := exists_stop_index env.callStatus b.sendCount_ hN
    obtain ⟨_, h2, _, ⟨ops, h4, _, h6, h7⟩, _⟩ :=
      run_chained b env deliveries stats0 j hrec hmode hav hgo hstop (by omega)
    refine ⟨by simp [h2], ?_⟩
    rw [h4]
    simp [h6, h7]
  · intro hmode hs
    obtain ⟨_, h2, _, ops, h4, _, h6, h7⟩ :=
      run_blocking_success b env deliveries stats0 hrec hmode hav hs
    refine ⟨by simp [h2], ?_⟩
    rw [h4]
    simp [h6, h7]

theorem transport_open_after_blocking_failure_witness :
    Recognised SendType.SEND_TYPE_COPY ∧ 1 ≤ 5 ∧
      (awaitService (failingService 2) (World.initial freshStats)).1 = true ∧
      (false = false ∧ 1 ≤ 3 ∧ 3 ≤ 5 ∧
        (∀ i, i + 1 < 3 → (failingService 2).callStatus i = .SUCCESS) ∧
        (failingService 2).callStatus (3 - 1) ≠ .SUCCESS) ∧
      (run ⟨.SEND_TYPE_COPY, 5, 0, false, false⟩ (failingService 2) 0
          freshStats).2.benchmarkStats_.transportOpen = true ∧
      (∃ pre, statsOps (run ⟨.SEND_TYPE_COPY, 5, 0, false, false⟩ (failingService 2) 0
          freshStats).2.trace = pre ++ [.startTransport, .stop]) ∧
      (statsOps (run ⟨.SEND_TYPE_COPY, 5, 0, false, false⟩ (failingService 2) 0
          freshStats).2.trace).count .startTransport =
        (statsOps (run ⟨.SEND_TYPE_COPY, 5, 0, false, false⟩ (failingService 2) 0
          freshStats).2.trace).count .stopTransport + 1 :=
  have hs : ∀ i, i + 1 < 3 → (failingService 2).callStatus i = .SUCCESS := by
    intro i hi
    have h2 : i ≠ 2 := by omega
    simp [failingService, h2]
  ⟨trivial, by decide, rfl, ⟨rfl, by decide, by decide, hs, by decide⟩,
    (transport_open_after_blocking_failure ⟨.SEND_TYPE_COPY, 5, 0, false, false⟩
      (failingService 2) 0 freshStats trivial (by decide) rfl).1 rfl 3 (by decide) (by decide)
      hs (by decide)⟩

theorem echoOf_echoOf (env : Environment) (r : Request) (i : Nat) :
    echoOf env (echoOf env r i) = echoOf env r := by
  cases r <;> rfl

theorem operationOf_echoOf (env : Environment) (r : Request) (i : Nat) :
    operationOf (echoOf env r i) = operationOf r := by
  cases r <;> rfl

theorem echoChain_operation (env : Environment) :
    ∀ (m index : Nat) (r q : Request), q ∈ echoChain (echoOf env r) m index r →
      operationOf q = operationOf r := by
  intro m
  induction m with
  | zero => intro index r q h; simp [echoChain] at h
  | succ m ih =>
    intro index r q h
    simp only [echoChain, List.mem_cons] at h
    rcases h with h | h
    · rw [h]
    · have h2 : q ∈ echoChain (echoOf env (echoOf env r index)) m (index + 1)
          (echoOf env r index) := by
        rw [echoOf_echoOf]
        exact h
      rw [ih (index + 1) (echoOf env r index) q h2, operationOf_echoOf]

theorem operationOf_initialRequest (b : Benchmark) (hrec : Recognised b.sendType_) :
    operationOf (initialRequest b) = b.sendType_ := by
  obtain ⟨st, N, size, vb, asy⟩ := b
  cases st with
  | other raw => exact absurd hrec (by simp [Recognised])
  | SEND_TYPE_EMPTY => rfl
  | SEND_TYPE_COPY => rfl
  | SEND_TYPE_COPIES => rfl

/-- Once the endpoint was found available, `run()` is the `switch` entered in the
state left by `reset()` and followed by the end of the run. -/
theorem run_enters_switch (b : Benchmark) (env : Environment) (deliveries : Nat)
    (stats0 : BenchmarkStats)
    (hav : (awaitService env (World.initial stats0)).1 = true) :
    run b env deliveries stats0 =
      leaveSwitch b (dispatchSendType b env deliveries (enterSwitch b env stats0)) := by
  have hsplit : awaitService env (World.initial stats0) =
      (true, (awaitService env (World.initial stats0)).2) := by
    rw [← hav]
  simp only [run, enterSwitch]
  rw [hsplit]
  simp only [Bool.not_true, Bool.false_eq_true, if_false]
  cases hd : dispatchSendType b env deliveries
      (statsReset (if b.verbose_ = true then
        cout Message.benchmarkBegin (awaitService env (World.initial stats0)).2
        else (awaitService env (World.initial stats0)).2)) with
  | mk r w =>
    cases r with
    | none => rfl
    | some result => rfl

/-- The promise at the end of a run: untouched by a blocking run, resolved by a
chained one. -/
theorem run_promise (b : Benchmark) (env : Environment) (deliveries : Nat)
    (stats0 : BenchmarkStats)
    (hrec : Recognised b.sendType_) (hN : 1 ≤ b.sendCount_)
    (hav : (awaitService env (World.initial stats0)).1 = true)
    (hfuel : b.async_ = true → b.sendCount_ ≤ deliveries) :
    (run b env deliveries stats0).2.asyncPromise_.isSome = b.async_ := by
  obtain ⟨p, pre, _, _, _, hrun⟩ := run_of_available b env deliveries stats0 hav
  cases hmode : b.async_ with
  | false =>
    rcases first_failure env.callStatus b.sendCount_ with hs | ⟨j, hj, hf, hs⟩
    · obtain ⟨ev, hd, _⟩ := dispatchSendType_blocking_success b env deliveries
        ⟨⟨0, false, false, false⟩, none, p, 0, none, pre ++ [.stats .reset]⟩ hrec hmode
        (by simpa using hs) rfl rfl
      rw [hrun _ _ hd]
      rfl
    · obtain ⟨ev, hd, _⟩ := dispatchSendType_blocking_failure b env deliveries
        ⟨⟨0, false, false, false⟩, none, p, 0, none, pre ++ [.stats .reset]⟩ j hrec hmode hj
        (by simpa using hs) (by simpa using hf) rfl rfl
      rw [hrun _ _ hd]
      rfl
  | true =>
    obtain ⟨j, hj, hgo, hstop⟩ := exists_stop_index env.callStatus b.sendCount_ hN
    obtain ⟨ev, hd, _⟩ := dispatchSendType_chained b env deliveries
      ⟨⟨0, false, false, false⟩, none, p, 0, none, pre ++ [.stats .reset]⟩ j hrec hmode
      (by simpa using hgo) (by simpa using hstop) (by have := hfuel hmode; omega) rfl rfl rfl
    rw [hrun _ _ hd]
    rfl

/-- C6: with the endpoint found available, a call-shape value that is none of the
three enumerators makes `run()` enter none of the six loops: the only
aggregator operations are `reset` and `stop`, no remote call is issued, the
"not implemented" line is written, the completed-call counter stays 0 and
`run()` returns false.  For each of the three enumerators and each mode,
`run()` is exactly the loop of that shape and mode, entered in the state left
by `reset()` and followed by the end of the run; and in a run of target count
`N ≥ 1` (whose replies are delivered, in chained mode) at least one remote
call is issued, every remote call is the operation of the configured shape,
and the promise is resolved exactly when the mode is chained. -/
theorem run_dispatches_by_shape_and_mode (raw sendCount arraySize : Nat) (verbose async : Bool)
    (env : Environment) (deliveries : Nat) (stats0 : BenchmarkStats)
    (hav : (awaitService env (World.initial stats0)).1 = true) :
    ((run ⟨.other raw, sendCount, arraySize, verbose, async⟩ env deliveries stats0).1
        = some false ∧
      remoteCalls
        (run ⟨.other raw, sendCount, arraySize, verbose, async⟩ env deliveries stats0).2.trace
        = [] ∧
      statsOps
        (run ⟨.other raw, sendCount, arraySize, verbose, async⟩ env deliveries stats0).2.trace
        = [.reset, .stop] ∧
      Event.cerr .notImplemented ∈
        (run ⟨.other raw, sendCount, arraySize, verbose, async⟩ env deliveries stats0).2.trace ∧
      getSendCount
        (run ⟨.other raw, sendCount, arraySize, verbose, async⟩ env deliveries stats0).2 = 0) ∧
    (run ⟨.SEND_TYPE_EMPTY, sendCount, arraySize, verbose, false⟩ env deliveries stats0 =
        leaveSwitch ⟨.SEND_TYPE_EMPTY, sendCount, arraySize, verbose, false⟩
          (some (doEmptySendBenchmark ⟨.SEND_TYPE_EMPTY, sendCount, arraySize, verbose, false⟩
              env (enterSwitch ⟨.SEND_TYPE_EMPTY, sendCount, arraySize, verbose, false⟩
                env stats0)).1,
            (doEmptySendBenchmark ⟨.SEND_TYPE_EMPTY, sendCount, arraySize, verbose, false⟩
              env (enterSwitch ⟨.SEND_TYPE_EMPTY, sendCount, arraySize, verbose, false⟩
                env stats0)).2) ∧
      run ⟨.SEND_TYPE_EMPTY, sendCount, arraySize, verbose, true⟩ env deliveries stats0 =
        leaveSwitch ⟨.SEND_TYPE_EMPTY, sendCount, arraySize, verbose, true⟩
          (doEmptyAsyncSendBenchmark ⟨.SEND_TYPE_EMPTY, sendCount, arraySize, verbose, true⟩
            env deliveries
            (enterSwitch ⟨.SEND_TYPE_EMPTY, sendCount, arraySize, verbose, true⟩ env stats0)) ∧
      run ⟨.SEND_TYPE_COPY, sendCount, arraySize, verbose, false⟩ env deliveries stats0 =
        leaveSwitch ⟨.SEND_TYPE_COPY, sendCount, arraySize, verbose, false⟩
          (some (doCopySendBenchmark ⟨.SEND_TYPE_COPY, sendCount, arraySize, verbose, false⟩
              env (enterSwitch ⟨.SEND_TYPE_COPY, sendCount, arraySize, verbose, false⟩
                env stats0)).1,
            (doCopySendBenchmark ⟨.SEND_TYPE_COPY, sendCount, arraySize, verbose, false⟩
              env (enterSwitch ⟨.SEND_TYPE_COPY, sendCount, arraySize, verbose, false⟩
                env stats0)).2) ∧
      run ⟨.SEND_TYPE_COPY, sendCount, arraySize, verbose, true⟩ env deliveries stats0 =
        leaveSwitch ⟨.SEND_TYPE_COPY, sendCount, arraySize, verbose, true⟩
          (doCopyAsyncSendBenchmark ⟨.SEND_TYPE_COPY, sendCount, arraySize, verbose, true⟩
            env deliveries
            (enterSwitch ⟨.SEND_TYPE_COPY, sendCount, arraySize, verbose, true⟩ env stats0)) ∧
      run ⟨.SEND_TYPE_COPIES, sendCount, arraySize, verbose, false⟩ env deliveries stats0 =
        leaveSwitch ⟨.SEND_TYPE_COPIES, sendCount, arraySize, verbose, false⟩
          (some (doCopiesSendBenchmark ⟨.SEND_TYPE_COPIES, sendCount, arraySize, verbose, false⟩
              env (enterSwitch ⟨.SEND_TYPE_COPIES, sendCount, arraySize, verbose, false⟩
                env stats0)).1,
            (doCopiesSendBenchmark ⟨.SEND_TYPE_COPIES, sendCount, arraySize, verbose, false⟩
              env (enterSwitch ⟨.SEND_TYPE_COPIES, sendCount, arraySize, verbose, false⟩
                env stats0)).2) ∧
      run ⟨.SEND_TYPE_COPIES, sendCount, arraySize, verbose, true⟩ env deliveries stats0 =
        leaveSwitch ⟨.SEND_TYPE_COPIES, sendCount, arraySize, verbose, true⟩
          (doCopiesAsyncSendBenchmark ⟨.SEND_TYPE_COPIES, sendCount, arraySize, verbose, true⟩
            env deliveries
            (enterSwitch ⟨.SEND_TYPE_COPIES, sendCount, arraySize, verbose, true⟩
              env stats0))) ∧
    (∀ shape : SendType, Recognised shape → 1 ≤ sendCount →
      (async = true → sendCount ≤ deliveries) →
      remoteCalls
          (run ⟨shape, sendCount, arraySize, verbose, async⟩ env deliveries stats0).2.trace
        ≠ [] ∧
      (∀ q, q ∈ remoteCalls
            (run ⟨shape, sendCount, arraySize, verbose, async⟩ env deliveries stats0).2.trace →
          operationOf q = shape) ∧
      (run ⟨shape, sendCount, arraySize, verbose, async⟩ env deliveries
          stats0).2.asyncPromise_.isSome = async) := by
  refine ⟨?_, ⟨?_, ?_, ?_, ?_, ?_, ?_⟩, ?_⟩
  · obtain ⟨p, pre, hp1, hp2, hp3, hrun⟩ := run_of_available
      ⟨.other raw, sendCount, arraySize, verbose, async⟩ env deliveries stats0 hav
    rw [hrun .NOT_AVAILABLE _ (by simp [dispatchSendType]; rfl)]
    simp [hp1, hp2]
  · rw [run_enters_switch _ env deliveries stats0 hav]; rfl
  · rw [run_enters_switch _ env deliveries stats0 hav]; rfl
  · rw [run_enters_switch _ env deliveries stats0 hav]; rfl
  · rw [run_enters_switch _ env deliveries stats0 hav]; rfl
  · rw [run_enters_switch _ env deliveries stats0 hav]; rfl
  · rw [run_enters_switch _ env deliveries stats0 hav]; rfl
  · intro shape hrec hN hfuel
    obtain ⟨m, hm, h⟩ := run_requests ⟨shape, sendCount, arraySize, verbose, async⟩ env
      deliveries stats0 hrec hN hav hfuel
    refine ⟨?_, ?_, ?_⟩
    · intro hnil
      have hlen := echoChain_length
        (echoOf env (initialRequest ⟨shape, sendCount, arraySize, verbose, async⟩)) m 0
        (initialRequest ⟨shape, sendCount, arraySize, verbose, async⟩)
      rw [← h, hnil] at hlen
      simp at hlen
      omega
    · intro q hq
      rw [h] at hq
      rw [echoChain_operation env m 0 _ q hq]
      exact operationOf_initialRequest ⟨shape, sendCount, arraySize, verbose, async⟩ hrec
    · exact run_promise ⟨shape, sendCount, arraySize, verbose, async⟩ env deliveries stats0
        hrec hN hav hfuel

theorem run_dispatches_by_shape_and_mode_witness :
    (awaitService echoService (World.initial freshStats)).1 = true ∧
      ((run ⟨.other 7, 5, 0, false, true⟩ echoService 5 freshStats).1 = some false ∧
        remoteCalls (run ⟨.other 7, 5, 0, false, true⟩ echoService 5 freshStats).2.trace = [] ∧
        statsOps (run ⟨.other 7, 5, 0, false, true⟩ echoService 5 freshStats).2.trace
          = [.reset, .stop] ∧
        Event.cerr .notImplemented ∈
          (run ⟨.other 7, 5, 0, false, true⟩ echoService 5 freshStats).2.trace ∧
        getSendCount (run ⟨.other 7, 5, 0, false, true⟩ echoService 5 freshStats).2 = 0) ∧
      Recognised SendType.SEND_TYPE_COPY ∧ 1 ≤ 5 ∧ (true = true → 5 ≤ 5) ∧
      (remoteCalls (run ⟨.SEND_TYPE_COPY, 5, 0, false, true⟩ echoService 5 freshStats).2.trace
          ≠ [] ∧
        (∀ q, q ∈ remoteCalls
              (run ⟨.SEND_TYPE_COPY, 5, 0, false, true⟩ echoService 5 freshStats).2.trace →
            operationOf q = .SEND_TYPE_COPY) ∧
        (run ⟨.SEND_TYPE_COPY, 5, 0, false, true⟩ echoService 5
            freshStats).2.asyncPromise_.isSome = true) :=
  ⟨rfl, (run_dispatches_by_shape_and_mode 7 5 0 false true echoService 5 freshStats rfl).1,
    trivial, by decide, fun _ => Nat.le_refl 5,
    (run_dispatches_by_shape_and_mode 7 5 0 false true echoService 5 freshStats rfl).2.2
      .SEND_TYPE_COPY trivial (by decide) (fun _ => Nat.le_refl 5)⟩

end EchoBenchmark
